import Mathlib

/-!
# ApiResponse: the response decoder of the RingCentral JS SDK

A shallow embedding of `src/sdk/src/http/ApiResponse.ts`.

* JavaScript strings are lists of characters (`Str`).
* A method that reads and writes `this` takes the wrapper and returns its result
  together with the wrapper afterwards; a thrown exception is the `Except.error` case.
* The two injected capabilities are kept apart: the response constructor
  (`this._externals.Response`) is a field of the wrapper, as in the source, and the
  platform's `JSON.parse` is an explicit argument of the methods that call it.
-/

set_option autoImplicit false
set_option maxRecDepth 100000

namespace RingCentral

/-! ## JavaScript strings -/

abbrev Str := List Char

/-- The characters removed by `String.prototype.trim`: WhiteSpace and LineTerminator. -/
def isWhiteSpace (c : Char) : Bool :=
  let n := c.toNat
  n == 9 || n == 10 || n == 11 || n == 12 || n == 13 || n == 32 || n == 160 ||
  n == 5760 || (8192 ≤ n && n ≤ 8202) || n == 8232 || n == 8233 || n == 8239 ||
  n == 8287 || n == 12288 || n == 65279

/-- Source: `s.trim()`. -/
def trim (s : Str) : Str :=
  ((s.dropWhile isWhiteSpace).reverse.dropWhile isWhiteSpace).reverse

/-- Source: `s.indexOf(pat)` counted from position `i`: the first position at which `pat`
starts, `-1` when there is none. -/
def indexOfFrom (pat : Str) : Str → Nat → Int
  | [], i => if pat.isEmpty then (i : Int) else -1
  | c :: cs, i => if pat.isPrefixOf (c :: cs) then (i : Int) else indexOfFrom pat cs (i + 1)

/-- Source: `s.indexOf(pat)`. -/
def indexOf (s pat : Str) : Int := indexOfFrom pat s 0

/-- Helper of `split`: puts a character in front of the segment being read. -/
def consHead (c : Char) : List Str → List Str
  | [] => [[c]]
  | h :: t => (c :: h) :: t

/-- Helper of `split` for a non-empty separator: scans left to right; `skip` counts the
characters of a separator just matched that are still to be passed over. -/
def splitGo (sep : Str) : Nat → Str → List Str
  | _, [] => [[]]
  | 0, c :: cs =>
    if sep.isPrefixOf (c :: cs) then [] :: splitGo sep (sep.length - 1) cs
    else consHead c (splitGo sep 0 cs)
  | k + 1, _ :: cs => splitGo sep k cs

/-- Source: `s.split(sep)` for a string separator: an empty separator gives the single
characters, any other separator cuts at its non-overlapping occurrences, left to right. -/
def split (s sep : Str) : List Str :=
  if sep.isEmpty then s.map (fun c => [c]) else splitGo sep 0 s

/-- Source: `parts.join(sep)`. -/
def join (parts : List Str) (sep : Str) : Str := sep.intercalate parts

/-- Source: `text.replace(/\r/g, '')`. -/
def removeCR (s : Str) : Str := s.filter (fun c => c != '\r')

/-- Two characters are equal under the `i` flag of a regular expression without the
`u` flag; for the ASCII pattern used here that is equality of ASCII upper case. -/
def ciEq (a b : Char) : Bool := a.toUpper == b.toUpper

/-- The pattern matches, ignoring case, at the start of the text. -/
def ciStartsWith : Str → Str → Bool
  | [], _ => true
  | _ :: _, [] => false
  | p :: ps, c :: cs => ciEq p c && ciStartsWith ps cs

/-- Capture group 1 of `s.match(/boundary=([^;]+)/i)`: at the first position where
`boundary=` is followed by at least one character other than `;`, the longest run of
such characters; `none` when the expression does not match. -/
def boundaryMatch : Str → Option Str
  | [] => none
  | c :: cs =>
    let run := ((c :: cs).drop 9).takeWhile (fun x => x != ';')
    if ciStartsWith "boundary=".toList (c :: cs) && !run.isEmpty then some run
    else boundaryMatch cs

/-! ## JavaScript values and exceptions -/

/-- The values `JSON.parse` returns, and `undefined`. Numbers are the integers. -/
inductive JsVal where
  | undefined
  | null
  | bool (b : Bool)
  | num (n : Int)
  | str (s : Str)
  | arr (items : List JsVal)
  | obj (fields : List (Str × JsVal))

/-- What a method can throw. -/
inductive JsError where
  | Error (message : String)
  | TypeError
  | SyntaxError
  | Thrown (tag : Nat)
deriving DecidableEq, Repr

/-- ToBoolean. -/
def JsVal.truthy : JsVal → Bool
  | .undefined => false
  | .null => false
  | .bool b => b
  | .num n => n != 0
  | .str s => !s.isEmpty
  | .arr _ => true
  | .obj _ => true

/-- Reading `v.name` for a name that is not an array index and not a built-in property
(`response`, `status`, `message`, `error_description`, `description`): a TypeError on
`undefined` and `null`, the field of an object, `undefined` in every other case. -/
def JsVal.field (v : JsVal) (name : Str) : Except JsError JsVal :=
  match v with
  | .undefined => .error .TypeError
  | .null => .error .TypeError
  | .obj fields => .ok ((fields.lookup name).getD .undefined)
  | _ => .ok .undefined

/-- Reading `v[i]` for a number `i`. -/
def JsVal.index (v : JsVal) (i : Nat) : Except JsError JsVal :=
  match v with
  | .undefined => .error .TypeError
  | .null => .error .TypeError
  | .arr items => .ok ((items.get? i).getD .undefined)
  | .str s => .ok (((s.get? i).map (fun c => JsVal.str [c])).getD .undefined)
  | .obj fields => .ok ((fields.lookup (Nat.repr i).toList).getD .undefined)
  | _ => .ok .undefined

/-- ToBoolean of a value that is a string or `null`. -/
def textTruthy : Option Str → Bool
  | none => false
  | some s => !s.isEmpty

/-! ## The capabilities of the host -/

/-- Modelled from the spec: the header collection capability is not under `src/`; it is
a "mapping from case-insensitive header name to value(s); appendable; queryable by
name". The entries are kept in the order they were appended. -/
structure Headers where
  entries : List (Str × Str)
deriving DecidableEq

/-- Source: `new Headers()`. -/
def Headers.empty : Headers := ⟨[]⟩

/-- Source: `headers.append(name, value)`. -/
def Headers.append (h : Headers) (name value : Str) : Headers :=
  ⟨h.entries ++ [(name, value)]⟩

/-- Source: `headers.get(name)`: `null` when no entry has the name, otherwise the values of the
entries with that name (compared ignoring ASCII case), joined by a comma and a space. -/
def Headers.get (h : Headers) (name : Str) : Option Str :=
  match (h.entries.filter
      (fun e => e.1.map Char.toLower == name.map Char.toLower)).map Prod.snd with
  | [] => none
  | v :: vs => some (join (v :: vs) ", ".toList)

/-- The response capability as the wrapper sees it: success indicator, numeric status,
status text, header collection, and the body its text read gives. -/
structure Response where
  ok : Bool
  status : Nat
  statusText : Str
  headers : Headers
  body : Option Str
deriving DecidableEq

/-- The injected constructors. `Response body headers status statusText` is
`new this._externals.Response(body, {headers, status, statusText})`; the header
collection constructor is `Headers.empty`. -/
structure Externals where
  Response : Option Str → Headers → JsVal → Str → Except JsError Response

/-- The originating request, an opaque reference. -/
structure Request where
  id : Nat
deriving DecidableEq

/-! ## The wrapper -/

/-- The fields of `class ApiResponse`. -/
structure ApiResponse where
  _externals : Externals
  _request : Option Request
  _response : Option Response
  _text : Option Str
  _json : JsVal
  _multipart : List ApiResponse

namespace ApiResponse

def _contentType : Str := "Content-Type".toList
def _jsonContentType : Str := "application/json".toList
def _multipartContentType : Str := "multipart/mixed".toList
def _headerSeparator : Str := ":".toList
def _bodySeparator : Str := "\n\n".toList
def _boundarySeparator : Str := "--".toList

/-- Source: `new ApiResponse({externals, request, response, responseText})`. -/
def new (externals : Externals) (request : Option Request) (response : Option Response)
    (responseText : Option Str) : ApiResponse :=
  { _externals := externals, _request := request, _response := response,
    _text := responseText, _json := .null, _multipart := [] }

/-- Source: `ok()`, as a truth value: `this._response && this._response.ok`. -/
def ok (w : ApiResponse) : Bool :=
  match w._response with
  | none => false
  | some r => r.ok

/-- Source: `_getContentType()`: reading `headers` of a missing response is a TypeError. -/
def _getContentType (w : ApiResponse) : Except JsError Str :=
  match w._response with
  | none => .error .TypeError
  | some r => .ok ((r.headers.get _contentType).getD [])

/-- Source: `_isContentType(contentType)`: `Boolean(~indexOf)` is true unless `indexOf` is -1. -/
def _isContentType (w : ApiResponse) (contentType : Str) : Except JsError Bool :=
  match _getContentType w with
  | .error e => .error e
  | .ok ct => .ok (indexOf ct contentType != -1)

def _isMultipart (w : ApiResponse) : Except JsError Bool :=
  _isContentType w _multipartContentType

def _isJson (w : ApiResponse) : Except JsError Bool :=
  _isContentType w _jsonContentType

/-- Source: `text()`. -/
def text (w : ApiResponse) : Except JsError (Option Str) :=
  match _isJson w with
  | .error e => .error e
  | .ok true => .ok w._text
  | .ok false =>
    match _isMultipart w with
    | .error e => .error e
    | .ok true => .ok w._text
    | .ok false => .error (.Error "Response is not text")

/-- Source: `json()`: the result and the wrapper afterwards. -/
def json (JSON_parse : Str → Except JsError JsVal) (w : ApiResponse) :
    Except JsError JsVal × ApiResponse :=
  match _isJson w with
  | .error e => (.error e, w)
  | .ok false => (.error (.Error "Response is not JSON"), w)
  | .ok true =>
    if !w._json.truthy then
      match w._text with
      | some (c :: cs) =>
        match JSON_parse (c :: cs) with
        | .error e => (.error e, w)
        | .ok v => (.ok v, { w with _json := v })
      | _ => (.ok .null, { w with _json := .null })
    else (.ok w._json, w)

/-- The default message of `error()`: the status and a space when the status is not 0,
then the status text when it is not empty. -/
def defaultMessage (w : ApiResponse) : Str :=
  (match w._response with
    | some r => if r.status != 0 then (Nat.repr r.status).toList ++ " ".toList else []
    | none => []) ++
  (match w._response with
    | some r => if !r.statusText.isEmpty then r.statusText else []
    | none => [])

/-- Source: `error(skipOKCheck)`: the message and the wrapper afterwards. Everything thrown
between `try` and `catch`, the destructuring of `null` included, is swallowed. -/
def error (JSON_parse : Str → Except JsError JsVal) (w : ApiResponse) (skipOKCheck : Bool) :
    JsVal × ApiResponse :=
  if ok w && !skipOKCheck then (.null, w)
  else
    let msg := JsVal.str (defaultMessage w)
    match json JSON_parse w with
    | (.error _, w1) => (msg, w1)
    | (.ok v, w1) =>
      match v.field "message".toList, v.field "error_description".toList,
          v.field "description".toList with
      | .ok message, .ok error_description, .ok description =>
        let msg := if message.truthy then message else msg
        let msg := if error_description.truthy then error_description else msg
        let msg := if description.truthy then description else msg
        (msg, w1)
      | _, _, _ => (msg, w1)

/-- Source: `_create(text, status, statusText)`, first half: the header collection and the body
text computed from a segment. -/
def _createParts (text : Str) : Headers × Option Str :=
  let text := removeCR text
  let headers := Headers.empty
  let headersAndBody := split text _bodySeparator
  let headersText := if headersAndBody.length > 1 then headersAndBody.headD [] else []
  let headersAndBody := if headersAndBody.length > 1 then headersAndBody.tail else headersAndBody
  let text : Option Str :=
    if headersAndBody.length > 0 then some (join headersAndBody _bodySeparator) else none
  let headers := (split headersText "\n".toList).foldl
    (fun (headers : Headers) (header : Str) =>
      let split := split (trim header) _headerSeparator
      let key := trim (split.headD [])
      let value := trim (join split.tail _headerSeparator)
      if !key.isEmpty then headers.append key value else headers)
    headers
  (headers, text)

/-- Source: `_create(text, status, statusText)`: a parameter that is `undefined` or left out
takes its default, `200` and `'OK'`. -/
def _create (w : ApiResponse) (text : Str) (status : JsVal) (statusText : Option Str) :
    Except JsError ApiResponse :=
  let status := match status with
    | .undefined => JsVal.num 200
    | s => s
  let statusText := statusText.getD "OK".toList
  let (headers, text) := _createParts text
  match w._externals.Response text headers status statusText with
  | .error e => .error e
  | .ok response => .ok (new w._externals none (some response) text)

/-- Source: `parts[i].trim()`: an index outside the array gives `undefined`, and calling `trim`
on it is a TypeError. -/
def trimAt (parts : List Str) (i : Int) : Except JsError Str :=
  if i < 0 then .error .TypeError
  else
    match parts.get? i.toNat with
    | none => .error .TypeError
    | some p => .ok (trim p)

/-- Source: `parts.map((part, i) => this._create(part, statusInfo.response[i].status))`, from
index `i` on. -/
def createAll (w : ApiResponse) (statusInfo : JsVal) : Nat → List Str →
    Except JsError (List ApiResponse)
  | _, [] => .ok []
  | i, part :: rest =>
    match statusInfo.field "response".toList with
    | .error e => .error e
    | .ok response =>
      match response.index i with
      | .error e => .error e
      | .ok entry =>
        match entry.field "status".toList with
        | .error e => .error e
        | .ok status =>
          match _create w part status none with
          | .error e => .error e
          | .ok child =>
            match createAll w statusInfo (i + 1) rest with
            | .error e => .error e
            | .ok children => .ok (child :: children)

/-- The body of `if (!this._multipart.length) { ... }` in `multipart()` up to the
assignment: the children computed from the text and the Content-Type. -/
def splitBody (JSON_parse : Str → Except JsError JsVal) (w : ApiResponse) :
    Except JsError (List ApiResponse) :=
  match text w with
  | .error e => .error e
  | .ok none => .error (.Error "No response body")
  | .ok (some []) => .error (.Error "No response body")
  | .ok (some (c :: cs)) =>
    let text := c :: cs
    match (match _getContentType w with
        | .error e => Except.error e
        | .ok ct =>
          match boundaryMatch ct with
          | none => Except.error JsError.TypeError
          | some b => Except.ok b) with
    | .error _ => .error (.Error "Cannot find boundary")
    | .ok boundary =>
      if boundary.isEmpty then .error (.Error "Cannot find boundary")
      else
        let parts := split text (_boundarySeparator ++ boundary)
        match trimAt parts 0 with
        | .error e => .error e
        | .ok first =>
          let parts := if first.isEmpty then parts.tail else parts
          match trimAt parts ((parts.length : Int) - 1) with
          | .error e => .error e
          | .ok last =>
            let parts := if last == _boundarySeparator then parts.dropLast else parts
            if parts.length < 1 then .error (.Error "No parts in body")
            else
              match w._response with
              | none => .error .TypeError
              | some r =>
                match _create w (parts.headD []) (.num r.status) (some r.statusText) with
                | .error e => .error e
                | .ok envelope =>
                  match (json JSON_parse envelope).1 with
                  | .error e => .error e
                  | .ok statusInfo => createAll w statusInfo 0 parts.tail

/-- Source: `multipart()`: the result and the wrapper afterwards. -/
def multipart (JSON_parse : Str → Except JsError JsVal) (w : ApiResponse) :
    Except JsError (List ApiResponse) × ApiResponse :=
  match _isMultipart w with
  | .error e => (.error e, w)
  | .ok false => (.error (.Error "Response is not multipart"), w)
  | .ok true =>
    if w._multipart.length == 0 then
      match splitBody JSON_parse w with
      | .error e => (.error e, w)
      | .ok children => (.ok children, { w with _multipart := children })
    else (.ok w._multipart, w)

/-- Source: `toMultipart()`. -/
def toMultipart (JSON_parse : Str → Except JsError JsVal) (w : ApiResponse) :
    Except JsError (List ApiResponse) × ApiResponse :=
  match _isMultipart w with
  | .error e => (.error e, w)
  | .ok true => multipart JSON_parse w
  | .ok false => (.ok [w], w)

/-- Modelled from the spec: the "read full body as text" operation of the response
capability, which is not under `src/`; a response without a body reads as the empty
string. -/
def responseText (r : Response) : Str := r.body.getD []

/-- Source: `receiveResponse(response)`: what the promise settles to, the wrapper afterwards,
and whether `response.text()` was called. -/
def receiveResponse (w : ApiResponse) (response : Response) :
    Except JsError (Option Str) × ApiResponse × Bool :=
  let w1 : ApiResponse := { w with _response := some response }
  match _isMultipart w1 with
  | .error e => (.error e, w1, false)
  | .ok true =>
    (.ok (some (responseText response)), { w1 with _text := some (responseText response) }, true)
  | .ok false =>
    match _isJson w1 with
    | .error e => (.error e, w1, false)
    | .ok true =>
      (.ok (some (responseText response)), { w1 with _text := some (responseText response) },
        true)
    | .ok false => (.ok (some []), { w1 with _text := some [] }, false)

/-- Source: `_create`, lines 154 to 160: the header block and the body text a segment is cut
into. -/
def _createSplit (text : Str) : Str × Option Str :=
  let text := removeCR text
  let headersAndBody := split text _bodySeparator
  let headersText := if headersAndBody.length > 1 then headersAndBody.headD [] else []
  let headersAndBody := if headersAndBody.length > 1 then headersAndBody.tail else headersAndBody
  let text : Option Str :=
    if headersAndBody.length > 0 then some (join headersAndBody _bodySeparator) else none
  (headersText, text)

/-- Source: `_create`, lines 162 to 168: the header collection read from the header block. -/
def _createHeaders (headersText : Str) : Headers :=
  (split headersText "\n".toList).foldl
    (fun (headers : Headers) (header : Str) =>
      let split := split (trim header) _headerSeparator
      let key := trim (split.headD [])
      let value := trim (join split.tail _headerSeparator)
      if !key.isEmpty then headers.append key value else headers)
    Headers.empty

/-- Source: `multipart()`, lines 101 to 115: the segments the text is split into. -/
def segments (w : ApiResponse) : Except JsError (List Str) :=
  match text w with
  | .error e => .error e
  | .ok none => .error (.Error "No response body")
  | .ok (some []) => .error (.Error "No response body")
  | .ok (some (c :: cs)) =>
    let text := c :: cs
    match (match _getContentType w with
        | .error e => Except.error e
        | .ok ct =>
          match boundaryMatch ct with
          | none => Except.error JsError.TypeError
          | some b => Except.ok b) with
    | .error _ => .error (.Error "Cannot find boundary")
    | .ok boundary =>
      if boundary.isEmpty then .error (.Error "Cannot find boundary")
      else .ok (split text (_boundarySeparator ++ boundary))

/-- Source: `multipart()`, lines 117 to 128: the children built from the segments. -/
def fromSegments (JSON_parse : Str → Except JsError JsVal) (w : ApiResponse)
    (parts : List Str) : Except JsError (List ApiResponse) :=
  match trimAt parts 0 with
  | .error e => .error e
  | .ok first =>
    let parts := if first.isEmpty then parts.tail else parts
    match trimAt parts ((parts.length : Int) - 1) with
    | .error e => .error e
    | .ok last =>
      let parts := if last == _boundarySeparator then parts.dropLast else parts
      if parts.length < 1 then .error (.Error "No parts in body")
      else
        match w._response with
        | none => .error .TypeError
        | some r =>
          match _create w (parts.headD []) (.num r.status) (some r.statusText) with
          | .error e => .error e
          | .ok envelope =>
            match (json JSON_parse envelope).1 with
            | .error e => .error e
            | .ok statusInfo => createAll w statusInfo 0 parts.tail

end ApiResponse

/-! ## Notions the statements use -/

/-- The text before the first occurrence of the separator; the whole text when the
separator does not occur. -/
def beforeFirst (sep : Str) : Str → Str
  | [] => []
  | c :: cs => if sep.isPrefixOf (c :: cs) then [] else c :: beforeFirst sep cs

/-- The text after the first occurrence of the separator; `none` when the separator
does not occur. -/
def afterFirst (sep : Str) : Str → Option Str
  | [] => if sep.isEmpty then some [] else none
  | c :: cs =>
    if sep.isPrefixOf (c :: cs) then some ((c :: cs).drop sep.length) else afterFirst sep cs

/-- The caches of a wrapper agree with its text: a parsed value that is cached is what
the text parses to, and children that are cached are what the text splits into. Every
wrapper just constructed is in this state, and `json`, `error` and `multipart` keep it. -/
def Consistent (JSON_parse : Str → Except JsError JsVal) (w : ApiResponse) : Prop :=
  (w._json.truthy = true → ∃ t, w._text = some t ∧ t ≠ [] ∧ JSON_parse t = .ok w._json) ∧
  (w._multipart ≠ [] → ApiResponse.splitBody JSON_parse w = .ok w._multipart)

/-- The field of a parsed object when it is present and not empty (for a string: not
the empty string; in general: a value that counts as true). -/
def presentField (fields : List (Str × JsVal)) (name : String) : Option JsVal :=
  match fields.lookup name.toList with
  | some v => if v.truthy then some v else none
  | none => none

/-- The response constructor records what it is given when the status is a natural
number: the response it builds reports that status, status text, header collection and
body. -/
def Externals.Records (E : Externals) : Prop :=
  ∀ (body : Option Str) (headers : Headers) (n : Nat) (statusText : Str),
    ∃ r, E.Response body headers (.num (n : Int)) statusText = .ok r ∧
      r.status = n ∧ r.statusText = statusText ∧ r.headers = headers ∧ r.body = body

/-- No `boundary=` of the header carries a value: wherever `boundary=` stands in the
header (ignoring case), the header ends right after it or a semicolon follows. A header
without any `boundary=` is the first case of this. -/
def noBoundaryValue (ct : Str) : Bool :=
  ct.tails.all (fun t =>
    !ciStartsWith "boundary=".toList t ||
      (match t.drop 9 with
        | [] => true
        | c :: _ => c == ';'))

/-- The envelope value `{"response":[{"status":s_1},...,{"status":s_n}]}`. -/
def envelopeValue (statuses : List Nat) : JsVal :=
  .obj [("response".toList,
    .arr (statuses.map
      (fun (s : Nat) => JsVal.obj [("status".toList, .num (s : Int))])))]

/-- The batch body `--b` envelope `--b` part_1 ... `--b` part_n `--b--`. -/
def batchBody (b envelope : Str) (parts : List Str) : Str :=
  "--".toList ++ b ++ envelope ++ (parts.map (fun p => "--".toList ++ b ++ p)).flatten ++
    "--".toList ++ b ++ "--".toList

/-- The boundary parameter as the words "the characters that follow the first
occurrence of `boundary=`, ignoring case, up to the next semicolon or the end" read it;
`none` when `boundary=` does not occur. -/
def declaredBoundary : Str → Option Str
  | [] => none
  | c :: cs =>
    if ciStartsWith "boundary=".toList (c :: cs) then
      some (((c :: cs).drop 9).takeWhile (fun x => x != ';'))
    else declaredBoundary cs

/-- The text without the whitespace at its end. -/
def trimEnd (s : Str) : Str := (s.reverse.dropWhile isWhiteSpace).reverse

/-- The header a line of the header block stands for: the name is the trimmed text
before the first colon, the value the trimmed text after it; a line whose name is blank
stands for no header. -/
def headerOfLine (line : Str) : Option (Str × Str) :=
  let name := trim (beforeFirst ":".toList line)
  if name.isEmpty then none else some (name, trim ((afterFirst ":".toList line).getD []))

/-- The parsed value carries none of `message`, `error_description`, `description`
(a field that is empty counts as missing); a value that is not an object never does. -/
def noMessageField : JsVal → Bool
  | .obj fields =>
    (presentField fields "message").isNone && (presentField fields "error_description").isNone &&
      (presentField fields "description").isNone
  | _ => true

/-- The envelope value whose `response` list holds the given objects. -/
def envelopeObjects (entries : List (List (Str × JsVal))) : JsVal :=
  .obj [("response".toList, .arr (entries.map JsVal.obj))]

/-! ## A concrete host for the examples -/

namespace Host

/-- JSON whitespace. -/
def isWs (c : Char) : Bool := c == ' ' || c == '\n' || c == '\t' || c == '\r'

/-- The digits at the front of the text, as a number, and what follows them. -/
def readDigits : Str → Nat → Nat × Str
  | [], acc => (acc, [])
  | c :: cs, acc =>
    if c.isDigit then readDigits cs (acc * 10 + (c.toNat - 48)) else (acc, c :: cs)

/-- The characters of a JSON string up to its closing quote (the opening quote has been
read), with the two-character escapes decoded, and what follows the quote. -/
def readString : Str → Str → Option (Str × Str)
  | [], _ => none
  | c :: cs, acc =>
    if c == '"' then some (acc.reverse, cs)
    else if c == '\\' then
      match cs with
      | [] => none
      | e :: rest =>
        if e == 'n' then readString rest ('\n' :: acc)
        else if e == 't' then readString rest ('\t' :: acc)
        else if e == 'r' then readString rest ('\r' :: acc)
        else if e == '"' || e == '\\' || e == '/' then readString rest (e :: acc)
        else none
    else readString cs (c :: acc)

/-- Sets a field of an object under construction; a repeated name keeps the last value. -/
def setField (fields : List (Str × JsVal)) (name : Str) (v : JsVal) : List (Str × JsVal) :=
  fields.filter (fun e => e.1 != name) ++ [(name, v)]

mutual

/-- Reads one JSON value: `null`, `true`, `false`, an integer, a string, an array or an
object. The first argument bounds the nesting and the number of items read. -/
def readValue : Nat → Str → Option (JsVal × Str)
  | 0, _ => none
  | fuel + 1, s =>
    match s.dropWhile isWs with
    | 'n' :: 'u' :: 'l' :: 'l' :: rest => some (.null, rest)
    | 't' :: 'r' :: 'u' :: 'e' :: rest => some (.bool true, rest)
    | 'f' :: 'a' :: 'l' :: 's' :: 'e' :: rest => some (.bool false, rest)
    | '"' :: rest =>
      match readString rest [] with
      | none => none
      | some (str, rest) => some (.str str, rest)
    | '[' :: rest =>
      match rest.dropWhile isWs with
      | ']' :: rest => some (.arr [], rest)
      | _ => readItems fuel rest []
    | '{' :: rest =>
      match rest.dropWhile isWs with
      | '}' :: rest => some (.obj [], rest)
      | _ => readFields fuel rest []
    | '-' :: c :: rest =>
      if c.isDigit then
        let (n, rest) := readDigits (c :: rest) 0
        some (.num (-(n : Int)), rest)
      else none
    | c :: rest =>
      if c.isDigit then
        let (n, rest) := readDigits (c :: rest) 0
        some (.num (n : Int), rest)
      else none
    | [] => none

/-- Reads the items of an array up to its closing bracket. -/
def readItems : Nat → Str → List JsVal → Option (JsVal × Str)
  | 0, _, _ => none
  | fuel + 1, s, acc =>
    match readValue fuel s with
    | none => none
    | some (v, rest) =>
      match rest.dropWhile isWs with
      | ',' :: rest => readItems fuel rest (acc ++ [v])
      | ']' :: rest => some (.arr (acc ++ [v]), rest)
      | _ => none

/-- Reads the fields of an object up to its closing brace. -/
def readFields : Nat → Str → List (Str × JsVal) → Option (JsVal × Str)
  | 0, _, _ => none
  | fuel + 1, s, acc =>
    match s.dropWhile isWs with
    | '"' :: rest =>
      match readString rest [] with
      | none => none
      | some (name, rest) =>
        match rest.dropWhile isWs with
        | ':' :: rest =>
          match readValue fuel rest with
          | none => none
          | some (v, rest) =>
            match rest.dropWhile isWs with
            | ',' :: rest => readFields fuel rest (setField acc name v)
            | '}' :: rest => some (.obj (setField acc name v), rest)
            | _ => none
        | _ => none
    | _ => none

end

/-- A `JSON.parse` for the examples: integers are the only numbers and `\u` escapes are
not read; anything else that is not JSON is a SyntaxError. -/
def JSON_parse (s : Str) : Except JsError JsVal :=
  match readValue (s.length + 1) s with
  | none => .error .SyntaxError
  | some (v, rest) => if (rest.dropWhile isWs).isEmpty then .ok v else .error .SyntaxError

/-- A response constructor for the examples: it records its arguments, reports success
for a status from 200 to 299, and throws when the status is not a natural number. -/
def externals : Externals where
  Response := fun body headers status statusText =>
    match status with
    | .num (Int.ofNat n) =>
      .ok { ok := decide (200 ≤ n) && decide (n ≤ 299), status := n,
            statusText := statusText, headers := headers, body := body }
    | _ => .error (.Thrown 0)

/-- A response as the transport hands it over. -/
def response (status : Nat) (statusText contentType : String) (body : String) : Response :=
  { ok := decide (200 ≤ status) && decide (status ≤ 299), status := status,
    statusText := statusText.toList,
    headers := Headers.empty.append ApiResponse._contentType contentType.toList,
    body := some body.toList }

/-- A wrapper whose body has been attached. -/
def wrapper (status : Nat) (statusText contentType : String) (body : String) : ApiResponse :=
  ApiResponse.new externals none (some (response status statusText contentType body))
    (some body.toList)

/-- The envelope of the example batch: a JSON part with the statuses 200 and 404. -/
def batchEnvelope : Str :=
  "\r\nContent-Type: application/json\r\n\r\n\x7b\"response\":[\x7b\"status\":200\x7d,\x7b\"status\":404\x7d]\x7d\r\n".toList

/-- The two data parts of the example batch. -/
def batchParts : List Str :=
  ["\r\nContent-Type: application/json\r\n\r\n\x7b\"a\":1\x7d\r\n".toList,
   "\r\nContent-Type: application/json\r\nLocation: http://a/b\r\n\r\n\x7b\"message\":\"not found\"\x7d\r\n".toList]

/-- The example batch response: boundary `batch_123`, the envelope, two data parts. -/
def batch : ApiResponse :=
  ApiResponse.new externals none
    (some { ok := true, status := 200, statusText := "OK".toList,
            headers := Headers.empty.append ApiResponse._contentType
              "multipart/mixed; boundary=batch_123".toList,
            body := some (batchBody "batch_123".toList batchEnvelope batchParts) })
    (some (batchBody "batch_123".toList batchEnvelope batchParts))

/-- The sub-wrapper the example host builds for a data part. -/
def child (status : Nat) (headers : List (String × String)) (text : String) : ApiResponse :=
  ApiResponse.new externals none
    (some { ok := decide (200 ≤ status) && decide (status ≤ 299), status := status,
            statusText := "OK".toList,
            headers := ⟨headers.map (fun e => (e.1.toList, e.2.toList))⟩,
            body := some text.toList })
    (some text.toList)

/-- The children of the example batch. -/
def batchChildren : List ApiResponse :=
  [child 200 [("Content-Type", "application/json")] "\x7b\"a\":1\x7d\n",
   child 404 [("Content-Type", "application/json"), ("Location", "http://a/b")]
     "\x7b\"message\":\"not found\"\x7d\n"]

/-- A batch whose boundary is a single dash and whose only data part ends in a dash. -/
def dashBatch : ApiResponse :=
  wrapper 200 "OK" "multipart/mixed; boundary=-"
    "---\nContent-Type: application/json\n\n\x7b\"response\":[\x7b\"status\":200\x7d]\x7d\n---\n\nx------"

/-- A batch whose envelope lists one status and which has two data parts. -/
def shortBatch : ApiResponse :=
  ApiResponse.new externals none
    (some { ok := true, status := 200, statusText := "OK".toList,
            headers := Headers.empty.append ApiResponse._contentType
              "multipart/mixed; boundary=b1".toList,
            body := some (batchBody "b1".toList
              "\nContent-Type: application/json\n\n\x7b\"response\":[\x7b\"status\":200\x7d]\x7d\n".toList
              ["\n\none\n".toList, "\n\ntwo\n".toList]) })
    (some (batchBody "b1".toList
      "\nContent-Type: application/json\n\n\x7b\"response\":[\x7b\"status\":200\x7d]\x7d\n".toList
      ["\n\none\n".toList, "\n\ntwo\n".toList]))

/-- A batch with one data part of content type `text/plain`. -/
def plainBatch : ApiResponse :=
  wrapper 200 "OK" "multipart/mixed; boundary=b1"
    "--b1\nContent-Type: application/json\n\n\x7b\"response\":[\x7b\"status\":200\x7d]\x7d\n--b1\nContent-Type: text/plain\n\nhello\n--b1--"

/-- A batch made of an envelope with an empty status list and no data part. -/
def emptyBatch : ApiResponse :=
  wrapper 200 "OK" "multipart/mixed; boundary=b1"
    "--b1\nContent-Type: application/json\n\n\x7b\"response\":[]\x7d\n--b1--"

/-- A parser that rejects every text. -/
def rejectAll (_ : Str) : Except JsError JsVal := .error .SyntaxError

/-- A batch whose envelope has no header of its own, under a parent Content-Type that
names both `multipart/mixed` and `application/json`. -/
def bareEnvelopeBatch : ApiResponse :=
  ApiResponse.new externals none
    (some { ok := true, status := 200, statusText := "OK".toList,
            headers := Headers.empty.append ApiResponse._contentType
              "multipart/mixed; boundary=b1; type=application/json".toList,
            body := some (batchBody "b1".toList
              "\n\n\x7b\"response\":[\x7b\"status\":200\x7d]\x7d\n".toList
              ["\n\none\n".toList]) })
    (some (batchBody "b1".toList
      "\n\n\x7b\"response\":[\x7b\"status\":200\x7d]\x7d\n".toList ["\n\none\n".toList]))

/-- A batch whose envelope lists a status for the first data part and none for the
second and the third. -/
def defaultStatusBatch : ApiResponse :=
  ApiResponse.new externals none
    (some { ok := true, status := 207, statusText := "Multi-Status".toList,
            headers := Headers.empty.append ApiResponse._contentType
              "multipart/mixed; boundary=b1".toList,
            body := some (batchBody "b1".toList
              "\nContent-Type: application/json\n\n\x7b\"response\":[\x7b\"status\":404\x7d,\x7b\x7d,\x7b\"href\":\"x\"\x7d]\x7d\n".toList
              ["\n\none\n".toList, "\n\ntwo\n".toList, "\n\nthree\n".toList]) })
    (some (batchBody "b1".toList
      "\nContent-Type: application/json\n\n\x7b\"response\":[\x7b\"status\":404\x7d,\x7b\x7d,\x7b\"href\":\"x\"\x7d]\x7d\n".toList
      ["\n\none\n".toList, "\n\ntwo\n".toList, "\n\nthree\n".toList]))

end Host

/-! ## Strings: containment -/

theorem indexOfFrom_eq_neg_one (pat : Str) : ∀ (s : Str) (i : Nat),
    indexOfFrom pat s i = -1 ↔ ¬ pat <:+: s
  | [], i => by
    cases pat with
    | nil => simp [indexOfFrom]
    | cons p ps => simp [indexOfFrom]
  | c :: cs, i => by
    unfold indexOfFrom
    by_cases h : pat.isPrefixOf (c :: cs) = true
    · rw [if_pos h]
      have hp : pat <+: c :: cs := List.isPrefixOf_iff_prefix.mp h
      have : pat <:+: c :: cs := hp.isInfix
      constructor
      · intro h1; omega
      · intro h1; exact absurd this h1
    · rw [if_neg h, indexOfFrom_eq_neg_one pat cs (i + 1), List.infix_cons_iff]
      have hp : ¬ pat <+: c :: cs := fun hp => h (List.isPrefixOf_iff_prefix.mpr hp)
      tauto

theorem indexOf_ne_neg_one (s pat : Str) : (indexOf s pat != -1) = decide (pat <:+: s) := by
  by_cases h : pat <:+: s
  · have := (indexOfFrom_eq_neg_one pat s 0).not.mpr (not_not.mpr h)
    simp [indexOf, h, this]
  · have := (indexOfFrom_eq_neg_one pat s 0).mpr h
    simp [indexOf, h, this]

/-! ## Strings: splitting and joining -/

theorem join_singleton (s sep : Str) : join [s] sep = s := by
  simp [join, List.intercalate]

theorem join_cons_cons (a b : Str) (l : List Str) (sep : Str) :
    join (a :: b :: l) sep = a ++ sep ++ join (b :: l) sep := by
  simp [join, List.intercalate]

theorem splitGo_nil (sep : Str) (k : Nat) : splitGo sep k [] = [[]] := by
  cases k <;> rfl

theorem splitGo_zero_cons (sep : Str) (c : Char) (cs : Str) :
    splitGo sep 0 (c :: cs) =
      if sep.isPrefixOf (c :: cs) then [] :: splitGo sep (sep.length - 1) cs
      else consHead c (splitGo sep 0 cs) := rfl

theorem splitGo_succ_cons (sep : Str) (k : Nat) (c : Char) (cs : Str) :
    splitGo sep (k + 1) (c :: cs) = splitGo sep k cs := rfl

theorem splitGo_skip (sep : Str) : ∀ (s : Str) (k : Nat),
    splitGo sep k s = splitGo sep 0 (s.drop k)
  | [], k => by simp [splitGo_nil]
  | c :: cs, 0 => by simp
  | c :: cs, k + 1 => by
    rw [splitGo_succ_cons, List.drop_succ_cons]
    exact splitGo_skip sep cs k

theorem splitGo_ne_nil (sep : Str) : ∀ (s : Str) (k : Nat), splitGo sep k s ≠ []
  | [], k => by simp [splitGo_nil]
  | c :: cs, 0 => by
    rw [splitGo_zero_cons]
    split
    · simp
    · cases h : splitGo sep 0 cs with
      | nil => exact absurd h (splitGo_ne_nil sep cs 0)
      | cons a l => simp [consHead]
  | c :: cs, k + 1 => by
    rw [splitGo_succ_cons]
    exact splitGo_ne_nil sep cs k

theorem afterFirst_eq_none (sep : Str) : ∀ (s : Str), afterFirst sep s = none ↔ ¬ sep <:+: s
  | [] => by
    cases sep <;> simp [afterFirst]
  | c :: cs => by
    unfold afterFirst
    by_cases h : sep.isPrefixOf (c :: cs) = true
    · rw [if_pos h]
      have hp : sep <+: c :: cs := List.isPrefixOf_iff_prefix.mp h
      simp [hp.isInfix]
    · rw [if_neg h, afterFirst_eq_none sep cs, List.infix_cons_iff]
      have hp : ¬ sep <+: c :: cs := fun hp => h (List.isPrefixOf_iff_prefix.mpr hp)
      tauto

theorem splitGo_unfold (sep : Str) (hsep : sep ≠ []) : ∀ (s : Str),
    splitGo sep 0 s =
      match afterFirst sep s with
      | none => [s]
      | some rest => beforeFirst sep s :: splitGo sep 0 rest
  | [] => by
    cases sep with
    | nil => exact absurd rfl hsep
    | cons a l => simp [splitGo_nil, afterFirst]
  | c :: cs => by
    rw [splitGo_zero_cons]
    unfold afterFirst beforeFirst
    by_cases h : sep.isPrefixOf (c :: cs) = true
    · simp only [h, if_true]
      rw [splitGo_skip sep cs (sep.length - 1)]
      cases sep with
      | nil => exact absurd rfl hsep
      | cons a l => simp
    · simp only [h, if_false]
      rw [splitGo_unfold sep hsep cs]
      cases afterFirst sep cs <;> simp [consHead]

theorem splitGo_of_not_infix (sep : Str) (hsep : sep ≠ []) (s : Str) (h : ¬ sep <:+: s) :
    splitGo sep 0 s = [s] := by
  rw [splitGo_unfold sep hsep, (afterFirst_eq_none sep s).mpr h]

theorem afterFirst_some (sep : Str) : ∀ (s rest : Str), afterFirst sep s = some rest →
    s = beforeFirst sep s ++ sep ++ rest
  | [], rest => by
    cases sep <;> simp [afterFirst, beforeFirst]
  | c :: cs, rest => by
    unfold afterFirst beforeFirst
    by_cases h : sep.isPrefixOf (c :: cs) = true
    · simp only [h, if_true]
      intro hr
      cases hr
      obtain ⟨t, ht⟩ := List.isPrefixOf_iff_prefix.mp h
      rw [← ht]
      simp
    · simp only [h, if_false]
      intro hr
      have := afterFirst_some sep cs rest hr
      simp only [Bool.false_eq_true, if_false, List.cons_append, List.append_assoc] at this ⊢
      rw [← this]

theorem join_splitGo (sep : Str) (hsep : sep ≠ []) : ∀ (n : Nat) (s : Str), s.length ≤ n →
    join (splitGo sep 0 s) sep = s
  | 0, s, hn => by
    have : s = [] := List.eq_nil_of_length_eq_zero (by omega)
    subst this
    simp [splitGo_nil, join_singleton]
  | n + 1, s, hn => by
    rw [splitGo_unfold sep hsep]
    cases h : afterFirst sep s with
    | none => simp [join_singleton]
    | some rest =>
      have hs := afterFirst_some sep s rest h
      have hlen : rest.length ≤ n := by
        have h1 := congrArg List.length hs
        simp only [List.length_append] at h1
        have : 0 < sep.length := List.length_pos.mpr hsep
        omega
      have ih := join_splitGo sep hsep n rest hlen
      simp only
      cases hg : splitGo sep 0 rest with
      | nil => exact absurd hg (splitGo_ne_nil sep rest 0)
      | cons a l =>
        rw [hg] at ih
        rw [join_cons_cons, ih]
        exact hs.symm

/-- Where the separator occurs in `p ++ sep` only at the end, it is found there whatever
follows. -/
theorem first_of_delimited (sep : Str) (hsep : sep ≠ []) (rest : Str) : ∀ (p : Str),
    beforeFirst sep (p ++ sep) = p →
    beforeFirst sep (p ++ sep ++ rest) = p ∧ afterFirst sep (p ++ sep ++ rest) = some rest
  | [] => by
    intro _
    cases sep with
    | nil => exact absurd rfl hsep
    | cons a l => simp [beforeFirst, afterFirst]
  | c :: p => by
    intro h
    have hnp : ¬ sep.isPrefixOf (c :: p ++ sep) = true := by
      intro hp
      have h2 : beforeFirst sep (c :: (p ++ sep)) = c :: p := h
      rw [beforeFirst] at h2
      simp only [List.cons_append] at hp
      simp [hp] at h2
    have hnp2 : ¬ sep.isPrefixOf (c :: p ++ sep ++ rest) = true := by
      intro hp
      apply hnp
      rw [List.isPrefixOf_iff_prefix] at hp ⊢
      exact List.prefix_of_prefix_length_le hp (List.prefix_append _ _) (by simp; omega)
    have h1 : beforeFirst sep (p ++ sep) = p := by
      have h2 : beforeFirst sep (c :: (p ++ sep)) = c :: p := h
      rw [beforeFirst] at h2
      simp only [List.cons_append] at hnp
      simpa [hnp] using h2
    have ih := first_of_delimited sep hsep rest p h1
    simp only [List.cons_append] at hnp2 ⊢
    simp only [List.append_assoc] at hnp2 ih ⊢
    rw [beforeFirst, afterFirst]
    simp [hnp2, ih]

namespace ApiResponse

/-! ## Content type classification -/

theorem response_of_getContentType {w : ApiResponse} {ct : Str}
    (h : _getContentType w = .ok ct) : ∃ r, w._response = some r := by
  unfold _getContentType at h
  cases hr : w._response with
  | none => rw [hr] at h; cases h
  | some r => exact ⟨r, rfl⟩

theorem isContentType_eq {w : ApiResponse} {ct : Str} (h : _getContentType w = .ok ct)
    (contentType : Str) : _isContentType w contentType = .ok (decide (contentType <:+: ct)) := by
  simp [_isContentType, h, indexOf_ne_neg_one]

theorem isMultipart_eq {w : ApiResponse} {ct : Str} (h : _getContentType w = .ok ct) :
    _isMultipart w = .ok (decide (_multipartContentType <:+: ct)) :=
  isContentType_eq h _

theorem isJson_eq {w : ApiResponse} {ct : Str} (h : _getContentType w = .ok ct) :
    _isJson w = .ok (decide (_jsonContentType <:+: ct)) :=
  isContentType_eq h _

/-! ## The accessors -/

theorem text_of_multipart {w : ApiResponse} {ct : Str} (h : _getContentType w = .ok ct)
    (hm : _multipartContentType <:+: ct) : text w = .ok w._text := by
  unfold text
  rw [isJson_eq h, isMultipart_eq h]
  by_cases hj : _jsonContentType <:+: ct <;> simp [hj, hm]

theorem with_multipart_self (w : ApiResponse) : { w with _multipart := w._multipart } = w := by
  cases w; rfl

/-- With consistent caches, `multipart()` on a multipart wrapper gives what the text
splits into, and caches it. -/
theorem multipart_of_consistent (P : Str → Except JsError JsVal) {w : ApiResponse} {ct : Str}
    (h : _getContentType w = .ok ct) (hm : _multipartContentType <:+: ct)
    (hc : Consistent P w) :
    multipart P w =
      match splitBody P w with
      | .error e => (.error e, w)
      | .ok children => (.ok children, { w with _multipart := children }) := by
  unfold multipart
  rw [isMultipart_eq h]
  simp only [hm, decide_True]
  by_cases hl : w._multipart = []
  · simp [hl]
  · have hs := hc.2 hl
    have hlen : (w._multipart.length == 0) = false := by
      cases hw : w._multipart with
      | nil => exact absurd hw hl
      | cons a l => simp
    simp only [hlen, hs, with_multipart_self]
    simp

/-- C2: for every wrapper W with a response attached whose content type does not
contain `multipart/mixed`, `toMultipart()` succeeds, returns the one-element sequence
`[W]`, and leaves W unchanged. -/
theorem toMultipart_of_not_multipart (P : Str → Except JsError JsVal) (w : ApiResponse)
    (ct : Str) (h : _getContentType w = .ok ct) (hm : ¬ _multipartContentType <:+: ct) :
    toMultipart P w = (.ok [w], w) := by
  unfold toMultipart
  rw [isMultipart_eq h]
  simp [hm]

theorem toMultipart_of_not_multipart_witness :
    toMultipart Host.JSON_parse (Host.wrapper 200 "OK" "application/json" "[1]") =
      (.ok [Host.wrapper 200 "OK" "application/json" "[1]"],
        Host.wrapper 200 "OK" "application/json" "[1]") :=
  toMultipart_of_not_multipart Host.JSON_parse _ "application/json".toList rfl (by decide)

/-- C8: for every multipart wrapper whose cached text is the empty string,
`multipart()` fails with 'No response body', whatever the Content-Type says about a
boundary, and the wrapper is left as it was. -/
theorem multipart_no_body (P : Str → Except JsError JsVal) (w : ApiResponse) (ct : Str)
    (h : _getContentType w = .ok ct) (hm : _multipartContentType <:+: ct)
    (hc : Consistent P w) (ht : w._text = some []) :
    multipart P w = (.error (.Error "No response body"), w) := by
  rw [multipart_of_consistent P h hm hc]
  have : splitBody P w = .error (.Error "No response body") := by
    unfold splitBody
    rw [text_of_multipart h hm, ht]
  rw [this]

theorem multipart_no_body_witness :
    multipart Host.JSON_parse (Host.wrapper 200 "OK" "multipart/mixed; boundary=batch_123" "") =
      (.error (.Error "No response body"),
        Host.wrapper 200 "OK" "multipart/mixed; boundary=batch_123" "") :=
  multipart_no_body Host.JSON_parse _ "multipart/mixed; boundary=batch_123".toList rfl
    (by decide) ⟨fun h => absurd h (by decide), fun h => absurd rfl h⟩ rfl

/-- C9: for every wrapper with a response attached whose Content-Type does not contain
`application/json` (a missing header counts as the empty string), `json()` fails with
'Response is not JSON' whatever the cached text is, and the wrapper, its cached parsed
value included, is left as it was. -/
theorem json_not_json (P : Str → Except JsError JsVal) (w : ApiResponse) (ct : Str)
    (h : _getContentType w = .ok ct) (hj : ¬ _jsonContentType <:+: ct) :
    json P w = (.error (.Error "Response is not JSON"), w) := by
  unfold json
  rw [isJson_eq h]
  simp [hj]

theorem json_not_json_witness :
    json Host.JSON_parse (Host.wrapper 200 "OK" "text/plain" "[1]") =
      (.error (.Error "Response is not JSON"), Host.wrapper 200 "OK" "text/plain" "[1]") :=
  json_not_json Host.JSON_parse _ "text/plain".toList rfl (by decide)

/-- C10: for every wrapper whose response reports success, `error(false)` returns
`null`, whatever the status, status text, content type and body are, and leaves the
wrapper as it was. -/
theorem error_of_ok (P : Str → Except JsError JsVal) (w : ApiResponse) (r : Response)
    (hr : w._response = some r) (hok : r.ok = true) :
    error P w false = (.null, w) := by
  simp [error, ok, hr, hok]

theorem error_of_ok_witness :
    error Host.JSON_parse (Host.wrapper 200 "OK" "application/json" "\x7b\"message\":\"A\"\x7d")
        false =
      (.null, Host.wrapper 200 "OK" "application/json" "\x7b\"message\":\"A\"\x7d") :=
  error_of_ok Host.JSON_parse _ (Host.response 200 "OK" "application/json" "\x7b\"message\":\"A\"\x7d")
    rfl rfl

/-! ## json() and error() -/

/-- On a JSON wrapper with consistent caches and a non-empty text, `json()` returns what
the text parses to and caches it. -/
theorem json_of_parse (P : Str → Except JsError JsVal) {w : ApiResponse} {ct t : Str}
    {v : JsVal} (h : _getContentType w = .ok ct) (hj : _jsonContentType <:+: ct)
    (hc : Consistent P w) (ht : w._text = some t) (hne : t ≠ []) (hp : P t = .ok v) :
    json P w = (.ok v, { w with _json := v }) := by
  unfold json
  rw [isJson_eq h]
  simp only [hj, decide_True]
  by_cases hv : w._json.truthy = true
  · obtain ⟨t1, ht1, _, hp1⟩ := hc.1 hv
    rw [ht] at ht1
    cases ht1
    rw [hp] at hp1
    cases hp1
    simp only [hv, Bool.not_true, Bool.false_eq_true, if_false]
    cases w; rfl
  · cases t with
    | nil => exact absurd rfl hne
    | cons c cs => simp [hv, ht, hp]

/-- C4: for every failing response with JSON content type whose text parses to a JSON
object, `error()` returns the object's `description` when it is present and not empty,
otherwise its `error_description` when present and not empty, otherwise its `message`
when present and not empty (and the default message when none is). -/
theorem error_field_precedence (P : Str → Except JsError JsVal) (w : ApiResponse) (ct t : Str)
    (fields : List (Str × JsVal)) (skipOKCheck : Bool)
    (h : _getContentType w = .ok ct) (hj : _jsonContentType <:+: ct) (hok : ok w = false)
    (hc : Consistent P w) (ht : w._text = some t) (hne : t ≠ [])
    (hp : P t = .ok (.obj fields)) :
    (error P w skipOKCheck).1 =
      match presentField fields "description", presentField fields "error_description",
          presentField fields "message" with
      | some description, _, _ => description
      | none, some error_description, _ => error_description
      | none, none, some message => message
      | none, none, none => .str (defaultMessage w) := by
  unfold error
  rw [json_of_parse P h hj hc ht hne hp]
  simp only [hok, Bool.false_and, Bool.false_eq_true, if_false, JsVal.field, presentField]
  cases fields.lookup "description".toList <;> cases fields.lookup "error_description".toList <;>
    cases fields.lookup "message".toList <;> simp [JsVal.truthy] <;>
    (repeat' split) <;> simp_all

theorem error_field_precedence_witness :
    (error Host.JSON_parse
      (Host.wrapper 400 "Bad Request" "application/json"
        "\x7b\"message\":\"A\",\"error_description\":\"B\",\"description\":\"C\"\x7d") false).1 =
      .str "C".toList :=
  error_field_precedence Host.JSON_parse _ "application/json".toList
    "\x7b\"message\":\"A\",\"error_description\":\"B\",\"description\":\"C\"\x7d".toList
    [("message".toList, .str "A".toList), ("error_description".toList, .str "B".toList),
      ("description".toList, .str "C".toList)] false rfl (by decide) rfl
    ⟨fun h => absurd h (by decide), fun h => absurd rfl h⟩ rfl (by decide) (by rfl)

/-! ## _create -/

theorem split_of_not_infix (s sep : Str) (hsep : sep ≠ []) (h : ¬ sep <:+: s) :
    split s sep = [s] := by
  unfold split
  cases sep with
  | nil => exact absurd rfl hsep
  | cons a l => simpa using splitGo_of_not_infix (a :: l) hsep s h

theorem createParts_without_separator (text : Str) (h : ¬ _bodySeparator <:+: removeCR text) :
    _createParts text = (Headers.empty, some (removeCR text)) := by
  have hs := split_of_not_infix (removeCR text) _bodySeparator (by decide) h
  simp only [_createParts, hs, List.length_singleton, gt_iff_lt, lt_self_iff_false, if_false,
    Nat.zero_lt_one, if_true, join_singleton]
  rfl

/-- C5 (amended): in `_create`, for every segment without a blank-line separator once
carriage returns are removed, no header is added to the header collection, and the body
handed to the response constructor and cached as the text of the sub-wrapper is the whole
segment without its carriage returns (not `null`). -/
theorem create_without_separator (w : ApiResponse) (text : Str) (status : JsVal)
    (statusText : Option Str) (h : ¬ _bodySeparator <:+: removeCR text) :
    _create w text status statusText =
      match w._externals.Response (some (removeCR text)) Headers.empty
          (match status with
            | .undefined => JsVal.num 200
            | s => s)
          (statusText.getD "OK".toList) with
      | .error e => .error e
      | .ok response => .ok (new w._externals none (some response) (some (removeCR text))) := by
  unfold _create
  rw [createParts_without_separator text h]

theorem create_without_separator_witness :
    (_create (Host.wrapper 200 "OK" "multipart/mixed; boundary=b" "") "a: b\r\nc".toList
        .undefined none).toOption.map (fun c => (c._text, c._response)) =
      some (some "a: b\nc".toList,
        some { ok := true, status := 200, statusText := "OK".toList, headers := Headers.empty,
               body := some "a: b\nc".toList }) :=
  congrArg (fun r => r.toOption.map (fun c => (c._text, c._response)))
    (create_without_separator (Host.wrapper 200 "OK" "multipart/mixed; boundary=b" "")
      "a: b\r\nc".toList .undefined none (by decide))

/-- C5 as stated fails: the segment `a: b`, `c` on two lines has no blank line, and
the body handed to the response constructor and cached as text is that segment, not
`null`. -/
theorem create_without_separator_counterexample :
    ¬ (_bodySeparator <:+: removeCR "a: b\r\nc".toList) ∧
    (_createParts "a: b\r\nc".toList).2 ≠ none ∧
    (_create (Host.wrapper 200 "OK" "multipart/mixed; boundary=b" "") "a: b\r\nc".toList
        .undefined none).toOption.map (fun c => (c._text, c._response.map (fun r => r.body))) =
      some (some "a: b\nc".toList, some (some "a: b\nc".toList)) := by
  refine ⟨by decide, by decide, by rfl⟩

/-! ## multipart(): the failures -/

theorem boundaryMatch_none : ∀ (ct : Str), noBoundaryValue ct = true → boundaryMatch ct = none
  | [] => fun _ => rfl
  | c :: cs => by
    intro h
    have h1 : noBoundaryValue (c :: cs) =
        ((!ciStartsWith "boundary=".toList (c :: cs) ||
          (match (c :: cs).drop 9 with
            | [] => true
            | x :: _ => x == ';')) && noBoundaryValue cs) := by
      simp [noBoundaryValue, List.tails]
    rw [h1, Bool.and_eq_true] at h
    have ih := boundaryMatch_none cs h.2
    rw [boundaryMatch]
    have h2 : (ciStartsWith "boundary=".toList (c :: cs) &&
        !(((c :: cs).drop 9).takeWhile (fun x => x != ';')).isEmpty) = false := by
      rcases Bool.or_eq_true _ _ ▸ h.1 with h3 | h3
      · simp at h3
        simp [h3]
      · cases hd : (c :: cs).drop 9 with
        | nil => simp
        | cons x xs =>
          rw [hd] at h3
          simp at h3
          simp [h3]
    rw [h2]
    simpa using ih

/-- C7 (amended): for every multipart wrapper with non-empty text whose Content-Type has
no `boundary=` parameter (ignoring case), or in which every `boundary=` is followed
directly by a semicolon or by the end of the header, `multipart()` fails with 'Cannot
find boundary' and leaves the wrapper as it was. -/
theorem multipart_missing_boundary (P : Str → Except JsError JsVal) (w : ApiResponse)
    (ct : Str) (c : Char) (cs : Str)
    (h : _getContentType w = .ok ct) (hm : _multipartContentType <:+: ct)
    (hc : Consistent P w) (ht : w._text = some (c :: cs)) (hb : noBoundaryValue ct = true) :
    multipart P w = (.error (.Error "Cannot find boundary"), w) := by
  rw [multipart_of_consistent P h hm hc]
  have : splitBody P w = .error (.Error "Cannot find boundary") := by
    unfold splitBody
    rw [text_of_multipart h hm, ht]
    simp only [h, boundaryMatch_none ct hb]
  rw [this]

theorem multipart_missing_boundary_witness :
    multipart Host.JSON_parse (Host.wrapper 200 "OK" "multipart/mixed; Boundary=; x=1" "--a--") =
      (.error (.Error "Cannot find boundary"),
        Host.wrapper 200 "OK" "multipart/mixed; Boundary=; x=1" "--a--") :=
  multipart_missing_boundary Host.JSON_parse _ "multipart/mixed; Boundary=; x=1".toList '-'
    "-a--".toList rfl (by decide) ⟨fun h => absurd h (by decide), fun h => absurd rfl h⟩ rfl
    (by decide)

/-- C7 as stated fails: in `multipart/mixed; boundary=;boundary=x` the boundary
parameter has an empty value (nothing stands between the first `boundary=` and the
semicolon), yet the expression matches at the second `boundary=`, the token is `x`, and
on the body `--x--` the call fails with 'No parts in body', not with 'Cannot find
boundary'. -/
theorem multipart_missing_boundary_counterexample :
    declaredBoundary "multipart/mixed; boundary=;boundary=x".toList = some [] ∧
    _isMultipart (Host.wrapper 200 "OK" "multipart/mixed; boundary=;boundary=x" "--x--") =
      .ok true ∧
    (Host.wrapper 200 "OK" "multipart/mixed; boundary=;boundary=x" "--x--")._text =
      some "--x--".toList ∧
    (multipart Host.JSON_parse
      (Host.wrapper 200 "OK" "multipart/mixed; boundary=;boundary=x" "--x--")).1 =
        .error (.Error "No parts in body") := by
  refine ⟨by decide, by rfl, by rfl, by rfl⟩

/-- C6, the failing input: on a body that is only whitespace the single segment is
discarded as the leading one, and reading the last segment of the then empty array
throws a TypeError before the 'No parts in body' check is reached; a body that is only
the closing delimiter does fail with 'No parts in body'. -/
theorem multipart_whitespace_body :
    (multipart Host.JSON_parse
      (Host.wrapper 200 "OK" "multipart/mixed; boundary=abc" " ")).1 = .error .TypeError ∧
    (multipart Host.JSON_parse
      (Host.wrapper 200 "OK" "multipart/mixed; boundary=abc" "--abc--")).1 =
        .error (.Error "No parts in body") :=
  ⟨rfl, rfl⟩

/-! ## multipart(): the cache -/

theorem createAll_congr (w w1 : ApiResponse) (he : w1._externals = w._externals)
    (statusInfo : JsVal) : ∀ (parts : List Str) (i : Nat),
    createAll w1 statusInfo i parts = createAll w statusInfo i parts
  | [], i => by simp [createAll]
  | part :: rest, i => by
    simp only [createAll, _create, he, createAll_congr w w1 he statusInfo rest (i + 1)]

/-- What `multipart()` computes does not depend on the child cache. -/
theorem splitBody_with_cache (P : Str → Except JsError JsVal) (w : ApiResponse)
    (children : List ApiResponse) :
    splitBody P { w with _multipart := children } = splitBody P w := by
  have hc := fun (statusInfo : JsVal) (parts : List Str) =>
    createAll_congr w { w with _multipart := children } rfl statusInfo parts 0
  simp only [splitBody, hc]
  rfl

/-- C3: for every wrapper on which `multipart()` succeeds, a second `multipart()` call
on the wrapper as the first call left it succeeds as well and returns the same sequence:
same length and, position by position, the same children, hence the same status and the
same body text; the wrapper is not changed by the second call. -/
theorem multipart_twice (P : Str → Except JsError JsVal) (w w1 : ApiResponse)
    (children : List ApiResponse) (h : multipart P w = (.ok children, w1)) :
    multipart P w1 = (.ok children, w1) := by
  unfold multipart at h
  cases hm : _isMultipart w with
  | error e => rw [hm] at h; cases h
  | ok b =>
    cases b with
    | false => rw [hm] at h; cases h
    | true =>
      rw [hm] at h
      simp only at h
      by_cases hl : (w._multipart.length == 0) = true
      · rw [if_pos hl] at h
        cases hs : splitBody P w with
        | error e => rw [hs] at h; cases h
        | ok cs =>
          rw [hs] at h
          simp only [Prod.mk.injEq, Except.ok.injEq] at h
          obtain ⟨h1, h2⟩ := h
          subst h1
          subst h2
          have hm1 : _isMultipart { w with _multipart := cs } = .ok true := hm
          unfold multipart
          rw [hm1]
          simp only [splitBody_with_cache, hs]
          split <;> rfl
      · rw [if_neg hl] at h
        simp only [Prod.mk.injEq, Except.ok.injEq] at h
        obtain ⟨h1, h2⟩ := h
        subst h2
        subst h1
        unfold multipart
        rw [hm]
        simp only [hl]
        rfl

/-! ## multipart(): a well-formed batch -/

theorem batchBody_flatten (sep : Str) : ∀ (parts : List Str) (envelope : Str),
    envelope ++ (parts.map (fun p => sep ++ p)).flatten ++ sep =
      ((envelope :: parts).map (fun q => q ++ sep)).flatten
  | [], envelope => by simp
  | p :: parts, envelope => by
    have ih := batchBody_flatten sep parts p
    simp only [List.map_cons, List.flatten_cons, List.append_assoc] at ih ⊢
    rw [ih]

theorem batchBody_eq (b envelope : Str) (parts : List Str) :
    batchBody b envelope parts =
      ("--".toList ++ b) ++
        (((envelope :: parts).map (fun q => q ++ ("--".toList ++ b))).flatten ++ "--".toList) := by
  have h := batchBody_flatten ("--".toList ++ b) parts envelope
  unfold batchBody
  rw [← h]
  simp only [List.append_assoc]

theorem splitGo_segments (sep : Str) (hsep : sep ≠ []) (tail : Str) : ∀ (qs : List Str),
    (∀ q ∈ qs, beforeFirst sep (q ++ sep) = q) →
    splitGo sep 0 ((qs.map (fun q => q ++ sep)).flatten ++ tail) = qs ++ splitGo sep 0 tail
  | [] => by simp
  | q :: qs => by
    intro h
    have hq := first_of_delimited sep hsep ((qs.map (fun q => q ++ sep)).flatten ++ tail) q
      (h q (List.mem_cons_self _ _))
    have ih := splitGo_segments sep hsep tail qs (fun x hx => h x (List.mem_cons_of_mem _ hx))
    rw [splitGo_unfold sep hsep]
    simp only [List.map_cons, List.flatten_cons, List.append_assoc] at hq ⊢
    rw [hq.2]
    simp only [hq.1, ih, List.cons_append]

/-- The batch body splits into the empty leading segment, the envelope, the parts, and
the `--` that closes the last delimiter. -/
theorem split_batchBody (b envelope : Str) (parts : List Str) (hb : b ≠ [])
    (henv : beforeFirst ("--".toList ++ b) (envelope ++ ("--".toList ++ b)) = envelope)
    (hparts : ∀ p ∈ parts, beforeFirst ("--".toList ++ b) (p ++ ("--".toList ++ b)) = p) :
    split (batchBody b envelope parts) (_boundarySeparator ++ b) =
      [] :: envelope :: (parts ++ ["--".toList]) := by
  have hsep : "--".toList ++ b ≠ [] := by simp
  have hall : ∀ q ∈ envelope :: parts,
      beforeFirst ("--".toList ++ b) (q ++ ("--".toList ++ b)) = q := by
    intro q hq
    rcases List.mem_cons.mp hq with rfl | hq
    · exact henv
    · exact hparts q hq
  have hlast : splitGo ("--".toList ++ b) 0 "--".toList = ["--".toList] := by
    apply splitGo_of_not_infix _ hsep
    intro hin
    have := hin.length_le
    cases b with
    | nil => exact hb rfl
    | cons x xs => simp at this
  have h0 := first_of_delimited ("--".toList ++ b) hsep
    (((envelope :: parts).map (fun q => q ++ ("--".toList ++ b))).flatten ++ "--".toList) []
    (by simp [beforeFirst])
  have hsp : split (batchBody b envelope parts) (_boundarySeparator ++ b) =
      splitGo ("--".toList ++ b) 0 (batchBody b envelope parts) := by
    simp [split, _boundarySeparator]
  rw [hsp, batchBody_eq, splitGo_unfold _ hsep]
  simp only [List.nil_append] at h0
  rw [h0.2]
  simp only [h0.1]
  rw [splitGo_segments _ hsep _ _ hall, hlast]
  simp

/-- The text `_create` computes from a segment with a blank line is what follows the
first blank line of the segment without its carriage returns. -/
theorem createParts_text (text : Str) (h : _bodySeparator <:+: removeCR text) :
    (_createParts text).2 = afterFirst _bodySeparator (removeCR text) := by
  have hsep : _bodySeparator ≠ [] := by decide
  cases ha : afterFirst _bodySeparator (removeCR text) with
  | none => exact absurd h ((afterFirst_eq_none _ _).mp ha)
  | some rest =>
    have hs : split (removeCR text) _bodySeparator =
        beforeFirst _bodySeparator (removeCR text) :: splitGo _bodySeparator 0 rest := by
      have : split (removeCR text) _bodySeparator = splitGo _bodySeparator 0 (removeCR text) := by
        simp [split, _bodySeparator]
      rw [this, splitGo_unfold _ hsep, ha]
    have hj := join_splitGo _bodySeparator hsep rest.length rest (le_refl _)
    cases hg : splitGo _bodySeparator 0 rest with
    | nil => exact absurd hg (splitGo_ne_nil _ _ _)
    | cons a l =>
      rw [hg] at hs hj
      simp only [_createParts, hs, List.length_cons, List.tail_cons, hj]
      simp
      exact hj

theorem trimAt_zero (p : Str) (ps : List Str) : trimAt (p :: ps) 0 = .ok (trim p) := by
  simp [trimAt]

theorem trimAt_last (ps : List Str) (p : Str) :
    trimAt (ps ++ [p]) (((ps ++ [p]).length : Int) - 1) = .ok (trim p) := by
  have h1 : (((ps ++ [p]).length : Int) - 1) = (ps.length : Int) := by simp
  rw [h1]
  simp [trimAt]

theorem envelopeValue_response (statuses : List Nat) :
    (envelopeValue statuses).field "response".toList =
      .ok (.arr (statuses.map
        (fun (s : Nat) => JsVal.obj [("status".toList, .num (s : Int))]))) := by
  simp [envelopeValue, JsVal.field, List.lookup]

theorem status_field (v : JsVal) :
    (JsVal.obj [("status".toList, v)]).field "status".toList = .ok v := by
  simp [JsVal.field, List.lookup]

theorem createAll_statuses (w : ApiResponse) (hE : w._externals.Records) :
    ∀ (parts : List Str) (done statuses : List Nat), statuses.length = parts.length →
    (∀ p ∈ parts, _bodySeparator <:+: removeCR p) →
    ∃ children, createAll w (envelopeValue (done ++ statuses)) done.length parts = .ok children ∧
      children.map (fun c => c._response.map (fun r => r.status)) = statuses.map some ∧
      children.map (fun c => c._text) =
        parts.map (fun p => afterFirst _bodySeparator (removeCR p))
  | [], done, statuses => by
    intro hl _
    have : statuses = [] := List.eq_nil_of_length_eq_zero hl
    subst this
    exact ⟨[], rfl, rfl, rfl⟩
  | part :: rest, done, statuses => by
    intro hl hblank
    cases statuses with
    | nil => simp at hl
    | cons s ss =>
      have hl1 : ss.length = rest.length := by simpa using hl
      obtain ⟨cs, hcs, hst, htx⟩ := createAll_statuses w hE rest (done ++ [s]) ss hl1
        (fun p hp => hblank p (List.mem_cons_of_mem _ hp))
      obtain ⟨r, hr, hrs, _, _, _⟩ := hE (_createParts part).2 (_createParts part).1 s "OK".toList
      have hidx : ((done ++ s :: ss).map
          (fun (s : Nat) => JsVal.obj [("status".toList, .num (s : Int))])).get? done.length =
          some (JsVal.obj [("status".toList, .num (s : Int))]) := by
        rw [List.get?_eq_getElem?, List.getElem?_map, List.getElem?_append_right (le_refl _)]
        simp
      have hc : _create w part (.num (s : Int)) none =
          .ok (new w._externals none (some r) (_createParts part).2) := by
        simp only [_create, Option.getD_none, hr]
      have hd : done ++ s :: ss = (done ++ [s]) ++ ss := by simp
      have hlen : (done ++ [s]).length = done.length + 1 := by simp
      rw [← hd, hlen] at hcs
      refine ⟨new w._externals none (some r) (_createParts part).2 :: cs, ?_, ?_, ?_⟩
      · rw [createAll]
        simp only [envelopeValue_response, JsVal.index, hidx, Option.getD_some, status_field,
          hc, hcs]
      · simp [new, hrs, hst]
      · simp [new, htx, createParts_text part (hblank part (List.mem_cons_self _ _))]

theorem boundaryMatch_ne_nil : ∀ (ct b : Str), boundaryMatch ct = some b → b ≠ []
  | [], b => by simp [boundaryMatch]
  | c :: cs, b => by
    rw [boundaryMatch]
    split
    · rename_i h
      intro hb
      cases hb
      intro hn
      rw [Bool.and_eq_true] at h
      have h2 := h.2
      rw [hn] at h2
      simp at h2
    · exact boundaryMatch_ne_nil cs b

theorem consistent_new (P : Str → Except JsError JsVal) (externals : Externals)
    (request : Option Request) (response : Option Response) (responseText : Option Str) :
    Consistent P (new externals request response responseText) :=
  ⟨fun h => by simp [new, JsVal.truthy] at h, fun h => absurd rfl h⟩

/-- The envelope: `_create` succeeds on it and `json()` of the wrapper it builds gives
what the envelope body parses to. -/
theorem envelope_json (P : Str → Except JsError JsVal) (w : ApiResponse)
    (hE : w._externals.Records) (envelope : Str) (n : Nat) (statusText envText : Str) (v : JsVal)
    (hej : _jsonContentType <:+: ((_createParts envelope).1.get _contentType).getD [])
    (het : (_createParts envelope).2 = some envText) (hne : envText ≠ [])
    (hp : P envText = .ok v) :
    ∃ e, _create w envelope (.num (n : Int)) (some statusText) = .ok e ∧ (json P e).1 = .ok v := by
  obtain ⟨r, hr, _, _, hrh, _⟩ := hE (_createParts envelope).2 (_createParts envelope).1 n statusText
  refine ⟨new w._externals none (some r) (_createParts envelope).2, ?_, ?_⟩
  · simp only [_create, Option.getD_some, hr]
  · have hct : _getContentType (new w._externals none (some r) (_createParts envelope).2) =
        .ok (((_createParts envelope).1.get _contentType).getD []) := by
      simp [_getContentType, new, hrh]
    rw [json_of_parse P hct hej (consistent_new P _ _ _ _) het hne hp]

theorem splitBody_batch (P : Str → Except JsError JsVal) (w : ApiResponse)
    (ct b envelope envText : Str) (parts : List Str) (statuses : List Nat)
    (h : _getContentType w = .ok ct) (hm : _multipartContentType <:+: ct)
    (hb : boundaryMatch ct = some b) (hE : w._externals.Records)
    (ht : w._text = some (batchBody b envelope parts))
    (henv : beforeFirst ("--".toList ++ b) (envelope ++ ("--".toList ++ b)) = envelope)
    (hparts : ∀ p ∈ parts, beforeFirst ("--".toList ++ b) (p ++ ("--".toList ++ b)) = p)
    (hblank : ∀ p ∈ parts, _bodySeparator <:+: removeCR p)
    (hlen : statuses.length = parts.length)
    (hej : _jsonContentType <:+: ((_createParts envelope).1.get _contentType).getD [])
    (het : (_createParts envelope).2 = some envText) (hne : envText ≠ [])
    (hp : P envText = .ok (envelopeValue statuses)) :
    ∃ children, splitBody P w = .ok children ∧
      children.map (fun c => c._response.map (fun r => r.status)) = statuses.map some ∧
      children.map (fun c => c._text) =
        parts.map (fun p => afterFirst _bodySeparator (removeCR p)) := by
  have hbne := boundaryMatch_ne_nil ct b hb
  obtain ⟨r, hr⟩ := response_of_getContentType h
  obtain ⟨e, he, hje⟩ := envelope_json P w hE envelope r.status r.statusText envText
    (envelopeValue statuses) hej het hne hp
  obtain ⟨children, hcs, hst, htx⟩ := createAll_statuses w hE parts [] statuses hlen hblank
  have hsplit := split_batchBody b envelope parts hbne henv hparts
  obtain ⟨c, cs, hbody⟩ : ∃ c cs, batchBody b envelope parts = c :: cs :=
    ⟨'-', _, rfl⟩
  have hlast := trimAt_last (envelope :: parts) "--".toList
  have hbe : b.isEmpty = false := by
    cases b with
    | nil => exact absurd rfl hbne
    | cons x xs => rfl
  refine ⟨children, ?_, hst, htx⟩
  unfold splitBody
  rw [text_of_multipart h hm, ht, hbody]
  simp only [h, hb, hbe]
  rw [← hbody, hsplit, trimAt_zero]
  have htrim : (trim ([] : Str)).isEmpty = true := by decide
  simp only [htrim, if_true, List.tail_cons, Bool.false_eq_true, if_false]
  simp only [List.cons_append] at hlast
  rw [hlast]
  have htrim2 : (trim "--".toList == _boundarySeparator) = true := by decide
  have hdrop : (envelope :: (parts ++ ["--".toList])).dropLast = envelope :: parts := by
    rw [← List.cons_append, List.dropLast_concat]
  simp only [htrim2, if_true, hdrop, List.length_cons, hr, List.headD_cons, he, hje,
    List.tail_cons]
  simp only [List.nil_append, List.length_nil] at hcs
  simp [hcs]

theorem host_records : Host.externals.Records :=
  fun _ _ _ _ => ⟨_, rfl, rfl, rfl, rfl, rfl⟩

/-- C1 (amended): for every multipart response whose Content-Type declares boundary b and
whose body is `--b` envelope `--b` part_1 ... `--b` part_n `--b--`, where the first
`--b` in the envelope followed by `--b`, and in each part followed by `--b`, is the one
that follows it, the envelope carries a JSON Content-Type header and a body that parses
to the statuses s_1 ... s_n, and every part has a blank-line separator once carriage
returns are removed, `multipart()` (with a response constructor that records what it is
given) succeeds and returns exactly n sub-wrappers in the order of the parts, the i-th
with status s_i and with the text of part_i after its first blank line, carriage returns
removed; the envelope is not among them, and the sequence is cached. -/
theorem multipart_batch (P : Str → Except JsError JsVal) (w : ApiResponse)
    (ct b envelope envText : Str) (parts : List Str) (statuses : List Nat)
    (h : _getContentType w = .ok ct) (hm : _multipartContentType <:+: ct)
    (hb : boundaryMatch ct = some b) (hc : Consistent P w) (hE : w._externals.Records)
    (ht : w._text = some (batchBody b envelope parts))
    (henv : beforeFirst ("--".toList ++ b) (envelope ++ ("--".toList ++ b)) = envelope)
    (hparts : ∀ p ∈ parts, beforeFirst ("--".toList ++ b) (p ++ ("--".toList ++ b)) = p)
    (hblank : ∀ p ∈ parts, _bodySeparator <:+: removeCR p)
    (hlen : statuses.length = parts.length)
    (hej : _jsonContentType <:+: ((_createParts envelope).1.get _contentType).getD [])
    (het : (_createParts envelope).2 = some envText) (hne : envText ≠ [])
    (hp : P envText = .ok (envelopeValue statuses)) :
    ∃ children, multipart P w = (.ok children, { w with _multipart := children }) ∧
      children.map (fun c => c._response.map (fun r => r.status)) = statuses.map some ∧
      children.map (fun c => c._text) =
        parts.map (fun p => afterFirst _bodySeparator (removeCR p)) := by
  obtain ⟨children, hs, hst, htx⟩ := splitBody_batch P w ct b envelope envText parts statuses
    h hm hb hE ht henv hparts hblank hlen hej het hne hp
  refine ⟨children, ?_, hst, htx⟩
  rw [multipart_of_consistent P h hm hc, hs]

theorem multipart_batch_witness :
    ∃ children, multipart Host.JSON_parse Host.batch =
        (.ok children, { Host.batch with _multipart := children }) ∧
      children.map (fun c => c._response.map (fun r => r.status)) = [200, 404].map some ∧
      children.map (fun c => c._text) =
        Host.batchParts.map (fun p => afterFirst _bodySeparator (removeCR p)) :=
  multipart_batch Host.JSON_parse Host.batch "multipart/mixed; boundary=batch_123".toList
    "batch_123".toList Host.batchEnvelope
    "\x7b\"response\":[\x7b\"status\":200\x7d,\x7b\"status\":404\x7d]\x7d\n".toList
    Host.batchParts [200, 404] rfl (by decide) (by decide) (consistent_new _ _ _ _ _)
    host_records rfl (by decide) (by decide) (by decide) rfl (by decide) (by decide)
    (by decide) (by rfl)

/-- C1 as stated fails: with boundary `-` (delimiter `---`) and a data part that ends in
a dash, no part contains the delimiter, the envelope is JSON with one status, and the part
has a blank line; yet the delimiter is found one character early, the body splits into
three segments after the envelope, and `multipart()` fails with a TypeError on the
status of the second. -/
theorem multipart_batch_counterexample :
    Host.dashBatch._text = some (batchBody "-".toList
      "\nContent-Type: application/json\n\n\x7b\"response\":[\x7b\"status\":200\x7d]\x7d\n".toList
      ["\n\nx-".toList]) ∧
    boundaryMatch "multipart/mixed; boundary=-".toList = some "-".toList ∧
    ¬ ("---".toList <:+:
      "\nContent-Type: application/json\n\n\x7b\"response\":[\x7b\"status\":200\x7d]\x7d\n".toList) ∧
    ¬ ("---".toList <:+: "\n\nx-".toList) ∧
    _bodySeparator <:+: removeCR "\n\nx-".toList ∧
    _jsonContentType <:+: ((_createParts
      "\nContent-Type: application/json\n\n\x7b\"response\":[\x7b\"status\":200\x7d]\x7d\n".toList).1.get
        _contentType).getD [] ∧
    (_createParts
      "\nContent-Type: application/json\n\n\x7b\"response\":[\x7b\"status\":200\x7d]\x7d\n".toList).2.map
        Host.JSON_parse = some (.ok (envelopeValue [200])) ∧
    (multipart Host.JSON_parse Host.dashBatch).1 = .error .TypeError := by
  refine ⟨by decide, by decide, by decide, by decide, by decide, by decide, by rfl, by rfl⟩

theorem multipart_twice_witness :
    multipart Host.JSON_parse { Host.batch with _multipart := Host.batchChildren } =
      (.ok Host.batchChildren, { Host.batch with _multipart := Host.batchChildren }) :=
  multipart_twice Host.JSON_parse Host.batch _ Host.batchChildren (by rfl)

/-! ## The caches stay consistent -/

/-- What `multipart()` computes does not depend on the cached parsed value. -/
theorem splitBody_with_json (P : Str → Except JsError JsVal) (w : ApiResponse) (v : JsVal) :
    splitBody P { w with _json := v } = splitBody P w := by
  have hc := fun (statusInfo : JsVal) (parts : List Str) =>
    createAll_congr w { w with _json := v } rfl statusInfo parts 0
  simp only [splitBody, hc]
  rfl

theorem consistent_with_json (P : Str → Except JsError JsVal) (w : ApiResponse) (v : JsVal)
    (hc : Consistent P w)
    (hv : v.truthy = true → ∃ t, w._text = some t ∧ t ≠ [] ∧ P t = .ok v) :
    Consistent P { w with _json := v } :=
  ⟨hv, fun h => by rw [splitBody_with_json]; exact hc.2 h⟩

/-- The method `json()` keeps the caches consistent. -/
theorem consistent_json (P : Str → Except JsError JsVal) (w : ApiResponse)
    (hc : Consistent P w) : Consistent P (json P w).2 := by
  unfold json
  split
  · exact hc
  · exact hc
  · split
    · split
      · rename_i c cs ht
        split
        · exact hc
        · rename_i v hp
          exact consistent_with_json P w v hc (fun _ => ⟨c :: cs, ht, by simp, hp⟩)
      · exact consistent_with_json P w .null hc (fun h => by simp [JsVal.truthy] at h)
    · exact hc

/-- The method `error()` keeps the caches consistent. -/
theorem consistent_error (P : Str → Except JsError JsVal) (w : ApiResponse) (skipOKCheck : Bool)
    (hc : Consistent P w) : Consistent P (error P w skipOKCheck).2 := by
  have hj := consistent_json P w hc
  unfold error
  split
  · exact hc
  · simp only
    split
    · rename_i e w1 he
      rw [he] at hj
      exact hj
    · rename_i v w1 he
      rw [he] at hj
      split <;> exact hj

/-- The method `multipart()` keeps the caches consistent. -/
theorem consistent_multipart (P : Str → Except JsError JsVal) (w : ApiResponse)
    (hc : Consistent P w) : Consistent P (multipart P w).2 := by
  unfold multipart
  split
  · exact hc
  · exact hc
  · split
    · split
      · exact hc
      · rename_i children hs
        exact ⟨hc.1, fun _ => by rw [splitBody_with_cache]; exact hs⟩
    · exact hc

/-! ## The definitions cut in two agree with the whole -/

theorem createParts_eq_split (text : Str) :
    _createParts text = (_createHeaders (_createSplit text).1, (_createSplit text).2) := rfl

theorem splitBody_eq_segments (P : Str → Except JsError JsVal) (w : ApiResponse) :
    splitBody P w =
      match segments w with
      | .error e => .error e
      | .ok parts => fromSegments P w parts := by
  unfold splitBody segments
  cases text w with
  | error e => rfl
  | ok t =>
    cases t with
    | none => rfl
    | some t =>
      cases t with
      | nil => rfl
      | cons c cs =>
        simp only
        cases _getContentType w with
        | error e => rfl
        | ok ct =>
          simp only
          cases boundaryMatch ct with
          | none => rfl
          | some b =>
            simp only
            cases hb : b.isEmpty with
            | true => simp
            | false => simp [fromSegments]

/-! ## text(), json(), receiveResponse() -/

/-- C14: for every wrapper with a response attached, `text()` fails with 'Response is
not text' exactly when the Content-Type (the empty string when the header is missing)
contains neither `application/json` nor `multipart/mixed`, and in every other case
returns the cached text unchanged. -/
theorem text_eq (w : ApiResponse) (ct : Str) (h : _getContentType w = .ok ct) :
    text w =
      if _jsonContentType <:+: ct ∨ _multipartContentType <:+: ct then .ok w._text
      else .error (.Error "Response is not text") := by
  unfold text
  rw [isJson_eq h, isMultipart_eq h]
  by_cases hj : _jsonContentType <:+: ct <;> by_cases hm : _multipartContentType <:+: ct <;>
    simp [hj, hm]

theorem text_eq_witness :
    text (Host.wrapper 200 "OK" "text/plain" "hello") = .error (.Error "Response is not text") ∧
    text (Host.wrapper 200 "OK" "application/json; charset=UTF-8" "[1]") =
      .ok (some "[1]".toList) :=
  ⟨(text_eq (Host.wrapper 200 "OK" "text/plain" "hello") "text/plain".toList rfl).trans
      (if_neg (by decide)),
   (text_eq (Host.wrapper 200 "OK" "application/json; charset=UTF-8" "[1]")
      "application/json; charset=UTF-8".toList rfl).trans (if_pos (by decide))⟩

/-- C15: for every wrapper with JSON content type, `json()` on the empty cached text
succeeds and returns `null` without calling the parser, and on a non-empty text the
parser rejects it fails with the parser's error and leaves the wrapper as it was. -/
theorem json_empty_or_invalid (P : Str → Except JsError JsVal) (w : ApiResponse) (ct : Str)
    (h : _getContentType w = .ok ct) (hj : _jsonContentType <:+: ct) (hc : Consistent P w) :
    (w._text = some [] → json P w = (.ok .null, { w with _json := .null })) ∧
    (∀ (t : Str) (e : JsError), w._text = some t → t ≠ [] → P t = .error e →
      json P w = (.error e, w)) := by
  have hfalsy : ∀ t, w._text = some t → (t = [] ∨ ∃ e, P t = .error e) →
      w._json.truthy = false := by
    intro t ht hcase
    cases hv : w._json.truthy with
    | false => rfl
    | true =>
      obtain ⟨t1, ht1, hne, hp⟩ := hc.1 hv
      rw [ht] at ht1
      cases ht1
      rcases hcase with h0 | ⟨e, he⟩
      · exact absurd h0 hne
      · rw [he] at hp; cases hp
  constructor
  · intro ht
    have hv := hfalsy [] ht (Or.inl rfl)
    unfold json
    rw [isJson_eq h]
    simp [hj, hv, ht]
  · intro t e ht hne hp
    have hv := hfalsy t ht (Or.inr ⟨e, hp⟩)
    unfold json
    rw [isJson_eq h]
    cases t with
    | nil => exact absurd rfl hne
    | cons c cs => simp [hj, hv, ht, hp]

theorem json_empty_or_invalid_witness :
    json Host.JSON_parse (Host.wrapper 200 "OK" "application/json" "") =
      (.ok .null, { Host.wrapper 200 "OK" "application/json" "" with _json := .null }) ∧
    json Host.JSON_parse (Host.wrapper 200 "OK" "application/json" "\x7b\"a\":") =
      (.error .SyntaxError, Host.wrapper 200 "OK" "application/json" "\x7b\"a\":") :=
  ⟨(json_empty_or_invalid Host.JSON_parse (Host.wrapper 200 "OK" "application/json" "")
      "application/json".toList rfl (by decide) (consistent_new _ _ _ _ _)).1 rfl,
   (json_empty_or_invalid Host.JSON_parse (Host.wrapper 200 "OK" "application/json" "\x7b\"a\":")
      "application/json".toList rfl (by decide) (consistent_new _ _ _ _ _)).2
      "\x7b\"a\":".toList .SyntaxError rfl (by decide) (by rfl)⟩

/-- C16: `receiveResponse(r)` attaches r; when the Content-Type of r contains neither
`application/json` nor `multipart/mixed` the body of r is not read and the cached text
and the result are the empty string, whatever the body is; otherwise the body is read
and the cached text and the result are the body text of r. -/
theorem receiveResponse_eq (w : ApiResponse) (r : Response) :
    receiveResponse w r =
      if _jsonContentType <:+: (r.headers.get _contentType).getD [] ∨
          _multipartContentType <:+: (r.headers.get _contentType).getD [] then
        (.ok (some (responseText r)),
          { w with _response := some r, _text := some (responseText r) }, true)
      else (.ok (some []), { w with _response := some r, _text := some [] }, false) := by
  have h : _getContentType { w with _response := some r } =
      .ok ((r.headers.get _contentType).getD []) := rfl
  unfold receiveResponse
  simp only [isJson_eq h, isMultipart_eq h]
  by_cases hj : _jsonContentType <:+: (r.headers.get _contentType).getD [] <;>
    by_cases hm : _multipartContentType <:+: (r.headers.get _contentType).getD [] <;>
    simp [hj, hm]

/-! ## error(): the default message -/

theorem defaultMessage_eq (w : ApiResponse) (r : Response) (hr : w._response = some r) :
    defaultMessage w =
      (if r.status = 0 then [] else (Nat.repr r.status).toList ++ " ".toList) ++ r.statusText := by
  unfold defaultMessage
  rw [hr]
  by_cases hs : r.status = 0 <;> cases ht : r.statusText <;> simp [hs, ht]

theorem json_not_json_aux (P : Str → Except JsError JsVal) (w : ApiResponse) {ct : Str}
    (h : _getContentType w = .ok ct) (hj : ¬ _jsonContentType <:+: ct) :
    json P w = (.error (.Error "Response is not JSON"), w) := by
  unfold json
  rw [isJson_eq h]
  simp [hj]

theorem presentField_none (fields : List (Str × JsVal)) (name : String)
    (h : presentField fields name = none) :
    ((fields.lookup name.toList).getD .undefined).truthy = false := by
  unfold presentField at h
  cases hl : fields.lookup name.toList with
  | none => rfl
  | some v =>
    rw [hl] at h
    cases hv : v.truthy with
    | false => simpa using hv
    | true => simp [hv] at h

/-- C13: for every wrapper with a response attached, `error()` on a failing response or
with skipOKCheck true returns a message (nothing thrown gets past its `catch`), and
whenever the Content-Type is not JSON, the cached text is empty, the parser rejects the
text, or the parsed value carries none of the three fields, the message is the default:
the decimal status and one space when the status is not 0, then the status text. -/
theorem error_default_message (P : Str → Except JsError JsVal) (w : ApiResponse)
    (r : Response) (skipOKCheck : Bool) (hr : w._response = some r)
    (hfail : r.ok = false ∨ skipOKCheck = true) (hc : Consistent P w)
    (hcase : ¬ _jsonContentType <:+: (r.headers.get _contentType).getD [] ∨
      textTruthy w._text = false ∨
      (∃ t e, w._text = some t ∧ P t = .error e) ∨
      (∃ t v, w._text = some t ∧ P t = .ok v ∧ noMessageField v = true)) :
    (error P w skipOKCheck).1 =
      .str ((if r.status = 0 then [] else (Nat.repr r.status).toList ++ " ".toList) ++
        r.statusText) := by
  have hct : _getContentType w = .ok ((r.headers.get _contentType).getD []) := by
    simp [_getContentType, hr]
  have hgate : (ok w && !skipOKCheck) = false := by
    rcases hfail with h1 | h1
    · simp [ok, hr, h1]
    · simp [h1]
  rw [← defaultMessage_eq w r hr]
  unfold error
  simp only [hgate, Bool.false_eq_true, if_false]
  -- what `json()` gives decides the message
  have hkey : (∃ e w1, json P w = (.error e, w1)) ∨
      (∃ v w1, json P w = (.ok v, w1) ∧ noMessageField v = true) := by
    by_cases hj : _jsonContentType <:+: (r.headers.get _contentType).getD []
    · have hjs : _isJson w = .ok true := by rw [isJson_eq hct]; simp [hj]
      by_cases hv : w._json.truthy = true
      · obtain ⟨t1, ht1, hne, hp⟩ := hc.1 hv
        rcases hcase with h1 | h1 | ⟨t, e, ht, he⟩ | ⟨t, v, ht, hpv, hno⟩
        · exact absurd hj h1
        · cases t1 with
          | nil => exact absurd rfl hne
          | cons c cs => simp [ht1, textTruthy] at h1
        · rw [ht1] at ht; cases ht; rw [he] at hp; cases hp
        · rw [ht1] at ht; cases ht; rw [hpv] at hp; cases hp
          exact Or.inr ⟨w._json, w, by simp [json, hjs, hv], hno⟩
      · cases htx : w._text with
        | none =>
          exact Or.inr ⟨.null, { w with _json := .null }, by simp [json, hjs, hv, htx], rfl⟩
        | some t =>
          cases t with
          | nil =>
            exact Or.inr ⟨.null, { w with _json := .null }, by simp [json, hjs, hv, htx], rfl⟩
          | cons c cs =>
            cases hp : P (c :: cs) with
            | error e => exact Or.inl ⟨e, w, by simp [json, hjs, hv, htx, hp]⟩
            | ok v =>
              refine Or.inr ⟨v, { w with _json := v }, by simp [json, hjs, hv, htx, hp], ?_⟩
              rcases hcase with h1 | h1 | ⟨t, e, ht, he⟩ | ⟨t, v1, ht, hpv, hno⟩
              · exact absurd hj h1
              · simp [htx, textTruthy] at h1
              · rw [htx] at ht; cases ht; rw [he] at hp; cases hp
              · rw [htx] at ht; cases ht; rw [hpv] at hp; cases hp; exact hno
    · exact Or.inl ⟨.Error "Response is not JSON", w, json_not_json_aux P w hct hj⟩
  rcases hkey with ⟨e, w1, hjs⟩ | ⟨v, w1, hjs, hno⟩
  · rw [hjs]
  · rw [hjs]
    cases v with
    | obj fields =>
      simp only [noMessageField, Bool.and_eq_true, Option.isNone_iff_eq_none] at hno
      obtain ⟨⟨h1, h2⟩, h3⟩ := hno
      simp only [JsVal.field, presentField_none fields _ h1, presentField_none fields _ h2,
        presentField_none fields _ h3, Bool.false_eq_true, if_false]
    | _ => simp [JsVal.field, JsVal.truthy]

theorem error_default_message_witness :
    (error Host.JSON_parse (Host.wrapper 404 "Not Found" "text/html" "<html>") false).1 =
      .str "404 Not Found".toList ∧
    (error Host.JSON_parse (Host.wrapper 500 "" "application/json" "\x7b\"errorCode\":1\x7d")
      false).1 = .str "500 ".toList :=
  ⟨error_default_message Host.JSON_parse (Host.wrapper 404 "Not Found" "text/html" "<html>")
      (Host.response 404 "Not Found" "text/html" "<html>") false rfl (Or.inl rfl)
      (consistent_new _ _ _ _ _) (Or.inl (by decide)),
   error_default_message Host.JSON_parse
      (Host.wrapper 500 "" "application/json" "\x7b\"errorCode\":1\x7d")
      (Host.response 500 "" "application/json" "\x7b\"errorCode\":1\x7d") false rfl (Or.inl rfl)
      (consistent_new _ _ _ _ _)
      (Or.inr (Or.inr (Or.inr ⟨"\x7b\"errorCode\":1\x7d".toList,
        .obj [("errorCode".toList, .num 1)], rfl, by rfl, by decide⟩)))⟩

/-! ## _create: the cut at the first blank line -/

theorem beforeFirst_starts (sep : Str) : ∀ (s : Str), beforeFirst sep s <+: s
  | [] => by simp [beforeFirst]
  | c :: cs => by
    rw [beforeFirst]
    split
    · exact List.nil_prefix
    · exact (List.prefix_cons_inj c).mpr (beforeFirst_starts sep cs)

theorem not_infix_beforeFirst (sep : Str) (hsep : sep ≠ []) : ∀ (s : Str),
    ¬ sep <:+: beforeFirst sep s
  | [] => by
    simp only [beforeFirst, List.infix_nil]
    exact hsep
  | c :: cs => by
    rw [beforeFirst]
    split
    · simp only [List.infix_nil]
      exact hsep
    · rename_i hp
      rw [List.infix_cons_iff]
      rintro (h1 | h1)
      · apply hp
        rw [List.isPrefixOf_iff_prefix]
        exact h1.trans ((List.prefix_cons_inj c).mpr (beforeFirst_starts sep cs))
      · exact not_infix_beforeFirst sep hsep cs h1

theorem createSplit_eq (text : Str) (h : _bodySeparator <:+: removeCR text) :
    _createSplit text =
      (beforeFirst _bodySeparator (removeCR text), afterFirst _bodySeparator (removeCR text)) := by
  have hsep : _bodySeparator ≠ [] := by decide
  cases ha : afterFirst _bodySeparator (removeCR text) with
  | none => exact absurd h ((afterFirst_eq_none _ _).mp ha)
  | some rest =>
    have hs : split (removeCR text) _bodySeparator =
        beforeFirst _bodySeparator (removeCR text) :: splitGo _bodySeparator 0 rest := by
      have : split (removeCR text) _bodySeparator = splitGo _bodySeparator 0 (removeCR text) := by
        simp [split, _bodySeparator]
      rw [this, splitGo_unfold _ hsep, ha]
    have hj := join_splitGo _bodySeparator hsep rest.length rest (le_refl _)
    cases hg : splitGo _bodySeparator 0 rest with
    | nil => exact absurd hg (splitGo_ne_nil _ _ _)
    | cons a l =>
      rw [hg] at hs hj
      simp only [_createSplit, hs, List.length_cons, List.tail_cons, hj]
      simp
      exact hj

/-- No occurrence of the separator starts before the end of `beforeFirst`. -/
theorem beforeFirst_shortest (sep : Str) : ∀ (s pre post : Str), s = pre ++ sep ++ post →
    (beforeFirst sep s).length ≤ pre.length
  | [], _, _ => by
    intro _
    simp [beforeFirst]
  | c :: cs, pre, post => by
    intro hs
    rw [beforeFirst]
    by_cases hp : sep.isPrefixOf (c :: cs) = true
    · rw [if_pos hp]
      exact Nat.zero_le _
    · rw [if_neg hp]
      cases pre with
      | nil =>
        exfalso
        apply hp
        rw [List.isPrefixOf_iff_prefix, hs]
        exact ⟨post, by simp⟩
      | cons x pre1 =>
        simp only [List.cons_append, List.cons.injEq] at hs
        have ih := beforeFirst_shortest sep cs pre1 post hs.2
        simp only [List.length_cons]
        omega

/-- C18: in `_create`, for every segment that contains a blank-line separator once
carriage returns are removed, the cut is made at the first occurrence only: header
block, `\n\n` and body put together are the segment without its carriage returns, the
header block contains no two consecutive newlines, and no `\n\n` of the segment starts
before the end of the header block, so that the header block is the text before the
first `\n\n` and the body all the text after it, later blank lines included. -/
theorem createSplit_first (text : Str) (h : _bodySeparator <:+: removeCR text) :
    ∃ headersText body, _createSplit text = (headersText, some body) ∧
      ¬ _bodySeparator <:+: headersText ∧
      headersText ++ _bodySeparator ++ body = removeCR text ∧
      (∀ pre post, removeCR text = pre ++ _bodySeparator ++ post →
        headersText.length ≤ pre.length) ∧
      headersText = beforeFirst _bodySeparator (removeCR text) ∧
      some body = afterFirst _bodySeparator (removeCR text) := by
  cases ha : afterFirst _bodySeparator (removeCR text) with
  | none => exact absurd h ((afterFirst_eq_none _ _).mp ha)
  | some body =>
    refine ⟨beforeFirst _bodySeparator (removeCR text), body, ?_, ?_, ?_, ?_, rfl, rfl⟩
    · rw [createSplit_eq text h, ha]
    · exact not_infix_beforeFirst _ (by decide) _
    · exact (afterFirst_some _ _ _ ha).symm
    · exact beforeFirst_shortest _ _

theorem createSplit_first_witness :
    ∃ headersText body,
      _createSplit "A: 1\r\n\r\n\r\nline\r\n\r\nmore".toList = (headersText, some body) ∧
      ¬ _bodySeparator <:+: headersText ∧
      headersText ++ _bodySeparator ++ body =
        removeCR "A: 1\r\n\r\n\r\nline\r\n\r\nmore".toList ∧
      (∀ pre post, removeCR "A: 1\r\n\r\n\r\nline\r\n\r\nmore".toList =
          pre ++ _bodySeparator ++ post → headersText.length ≤ pre.length) ∧
      headersText = "A: 1".toList ∧ some body = some "\nline\n\nmore".toList :=
  createSplit_first "A: 1\r\n\r\n\r\nline\r\n\r\nmore".toList (by decide)

/-- The cut of `a`, three newlines, `b`: the header block is `a`, and the third newline
opens the body. -/
theorem createSplit_three_newlines :
    _createSplit "a\n\n\nb".toList = ("a".toList, some "\nb".toList) := by
  decide

/-! ## Strings: trimming -/

theorem dropWhile_append_of_not (p : Char → Bool) (x : Char) (r : Str) (hx : p x = false) :
    ∀ (l : Str), (l ++ x :: r).dropWhile p = l.dropWhile p ++ x :: r
  | [] => by simp [List.dropWhile, hx]
  | c :: l => by
    cases hc : p c with
    | true =>
      simp only [List.cons_append, List.dropWhile_cons, hc, if_true]
      exact dropWhile_append_of_not p x r hx l
    | false => simp [List.dropWhile_cons, hc]

theorem dropWhile_dropWhile (p : Char → Bool) : ∀ (l : Str),
    (l.dropWhile p).dropWhile p = l.dropWhile p
  | [] => rfl
  | c :: l => by
    cases hc : p c with
    | true =>
      simp only [List.dropWhile_cons, hc, if_true]
      exact dropWhile_dropWhile p l
    | false => simp [List.dropWhile_cons, hc]

theorem trim_eq (s : Str) : trim s = trimEnd (s.dropWhile isWhiteSpace) := rfl

theorem trimEnd_append_of_not (x : Char) (hx : isWhiteSpace x = false) (l r : Str) :
    trimEnd (l ++ x :: r) = l ++ x :: trimEnd r := by
  unfold trimEnd
  have h1 : (l ++ x :: r).reverse = r.reverse ++ x :: l.reverse := by simp
  rw [h1, dropWhile_append_of_not isWhiteSpace x l.reverse hx r.reverse]
  simp

theorem trimEnd_trimEnd (s : Str) : trimEnd (trimEnd s) = trimEnd s := by
  unfold trimEnd
  rw [List.reverse_reverse, dropWhile_dropWhile]

theorem trimEnd_of_all (s : Str) (h : s.dropWhile isWhiteSpace = []) : trimEnd s = [] := by
  unfold trimEnd
  rw [List.dropWhile_eq_nil_iff] at h
  have : s.reverse.dropWhile isWhiteSpace = [] := by
    rw [List.dropWhile_eq_nil_iff]
    intro x hx
    exact h x (List.mem_reverse.mp hx)
  rw [this]
  rfl

theorem dropWhile_trimEnd (s : Str) :
    (trimEnd s).dropWhile isWhiteSpace = trimEnd (s.dropWhile isWhiteSpace) := by
  cases hd : s.dropWhile isWhiteSpace with
  | nil =>
    rw [trimEnd_of_all s hd]
    rfl
  | cons x b =>
    have hx : isWhiteSpace x = false := by
      have := List.head_dropWhile_not isWhiteSpace s (by rw [hd]; simp)
      simpa [hd] using this
    have hs : s = s.takeWhile isWhiteSpace ++ x :: b := by
      rw [← hd, List.takeWhile_append_dropWhile]
    have ha : (s.takeWhile isWhiteSpace).dropWhile isWhiteSpace = [] := by
      rw [List.dropWhile_eq_nil_iff]
      intro y hy
      exact (List.mem_takeWhile_imp hy)
    have h2 := trimEnd_append_of_not x hx [] b
    simp only [List.nil_append] at h2
    rw [h2]
    conv_lhs => rw [hs]
    rw [trimEnd_append_of_not x hx, dropWhile_append_of_not isWhiteSpace x _ hx, ha]
    rfl

theorem trim_trimEnd (s : Str) : trim (trimEnd s) = trim s := by
  rw [trim_eq, trim_eq, dropWhile_trimEnd, trimEnd_trimEnd]

theorem trim_dropWhile (s : Str) : trim (s.dropWhile isWhiteSpace) = trim s := by
  rw [trim_eq, trim_eq, dropWhile_dropWhile]

theorem trim_trim (s : Str) : trim (trim s) = trim s := by
  conv_lhs => rw [trim_eq s]
  rw [trim_trimEnd, trim_dropWhile]

theorem trim_append_of_not (x : Char) (hx : isWhiteSpace x = false) (l r : Str) :
    trim (l ++ x :: r) = l.dropWhile isWhiteSpace ++ x :: trimEnd r := by
  rw [trim_eq, dropWhile_append_of_not isWhiteSpace x r hx, trimEnd_append_of_not x hx]

theorem mem_of_mem_trim (c : Char) (s : Str) (h : c ∈ trim s) : c ∈ s := by
  unfold trim at h
  rw [List.mem_reverse] at h
  have h1 := (List.dropWhile_sublist isWhiteSpace).subset h
  rw [List.mem_reverse] at h1
  exact (List.dropWhile_sublist isWhiteSpace).subset h1

/-! ## _create: the header lines -/

theorem beforeFirst_of_absent (sep : Str) : ∀ (s : Str), ¬ sep <:+: s →
    beforeFirst sep s = s
  | [] => fun _ => rfl
  | c :: cs => by
    intro h
    rw [List.infix_cons_iff, not_or] at h
    rw [beforeFirst]
    have hp : ¬ sep.isPrefixOf (c :: cs) = true := fun hp =>
      h.1 (List.isPrefixOf_iff_prefix.mp hp)
    rw [if_neg hp, beforeFirst_of_absent sep cs h.2]

theorem singleton_within (c : Char) : ∀ (s : Str), [c] <:+: s ↔ c ∈ s
  | [] => by simp
  | x :: s => by
    rw [List.infix_cons_iff, singleton_within c s, List.mem_cons]
    constructor
    · rintro (h | h)
      · obtain ⟨t, ht⟩ := h
        simp only [List.singleton_append, List.cons.injEq] at ht
        exact Or.inl ht.1
      · exact Or.inr h
    · rintro (h | h)
      · exact Or.inl ⟨s, by simp [h]⟩
      · exact Or.inr h

theorem first_of_not_mem (c : Char) (r : Str) : ∀ (l : Str), c ∉ l →
    beforeFirst [c] (l ++ c :: r) = l ∧ afterFirst [c] (l ++ c :: r) = some r
  | [] => by
    intro _
    simp [beforeFirst, afterFirst]
  | x :: l => by
    intro h
    rw [List.mem_cons, not_or] at h
    have ih := first_of_not_mem c r l h.2
    have hx : ¬ ([c].isPrefixOf (x :: (l ++ c :: r)) = true) := by
      simp only [List.isPrefixOf, Bool.and_true, beq_iff_eq]
      exact h.1
    simp only [List.cons_append]
    rw [beforeFirst, afterFirst, if_neg hx, if_neg hx, ih.1, ih.2]
    exact ⟨rfl, rfl⟩

/-- What `split(':')` leaves in front and behind: the text before the first colon, and
the text after it. -/
theorem split_head_tail (s sep : Str) (hsep : sep ≠ []) :
    (split s sep).headD [] = beforeFirst sep s ∧
    join (split s sep).tail sep = (afterFirst sep s).getD [] := by
  have hs : split s sep = splitGo sep 0 s := by
    cases sep with
    | nil => exact absurd rfl hsep
    | cons a l => simp [split]
  rw [hs, splitGo_unfold sep hsep]
  cases ha : afterFirst sep s with
  | none =>
    have := beforeFirst_of_absent sep s ((afterFirst_eq_none sep s).mp ha)
    simp only [List.headD_cons, List.tail_cons, this, Option.getD_none, true_and]
    rfl
  | some rest =>
    simp only [List.headD_cons, List.tail_cons, Option.getD_some, true_and]
    exact join_splitGo sep hsep rest.length rest (le_refl _)

/-- Trimming the line first does not change the trimmed text before and after its first
colon. -/
theorem trim_line_colon (line : Str) :
    trim (beforeFirst ":".toList (trim line)) = trim (beforeFirst ":".toList line) ∧
    trim ((afterFirst ":".toList (trim line)).getD []) =
      trim ((afterFirst ":".toList line).getD []) := by
  have hcolon : isWhiteSpace ':' = false := by decide
  have hsep : ":".toList = [':'] := rfl
  rw [hsep]
  cases ha : afterFirst [':'] line with
  | none =>
    have hn : ¬ [':'] <:+: line := (afterFirst_eq_none _ _).mp ha
    have hnt : ¬ [':'] <:+: trim line := by
      rw [singleton_within] at hn ⊢
      exact fun h => hn (mem_of_mem_trim _ _ h)
    rw [beforeFirst_of_absent _ _ hn, beforeFirst_of_absent _ _ hnt,
      (afterFirst_eq_none _ _).mpr hnt, trim_trim]
    exact ⟨rfl, rfl⟩
  | some rest =>
    have hs := afterFirst_some [':'] line rest ha
    have hnb : ':' ∉ beforeFirst [':'] line := by
      rw [← singleton_within]
      exact not_infix_beforeFirst _ (by simp) _
    have hnd : ':' ∉ (beforeFirst [':'] line).dropWhile isWhiteSpace :=
      fun h => hnb ((List.dropWhile_sublist isWhiteSpace).subset h)
    have ht : trim line =
        (beforeFirst [':'] line).dropWhile isWhiteSpace ++ ':' :: trimEnd rest := by
      conv_lhs => rw [hs]
      simp only [List.append_assoc, List.singleton_append]
      exact trim_append_of_not ':' hcolon _ _
    have hf := first_of_not_mem ':' (trimEnd rest) _ hnd
    rw [ht, hf.1, hf.2]
    simp only [Option.getD_some]
    exact ⟨trim_dropWhile _, trim_trimEnd _⟩

theorem header_step (headers : Headers) (header : Str) :
    (let split := split (trim header) _headerSeparator
     let key := trim (split.headD [])
     let value := trim (join split.tail _headerSeparator)
     if !key.isEmpty then headers.append key value else headers) =
      match headerOfLine header with
      | none => headers
      | some e => headers.append e.1 e.2 := by
  have hsp := split_head_tail (trim header) _headerSeparator (by decide)
  have htl := trim_line_colon header
  have hsep : _headerSeparator = ":".toList := rfl
  rw [hsep] at hsp
  simp only [hsep, hsp.1, hsp.2, htl.1, htl.2]
  unfold headerOfLine
  cases hk : trim (beforeFirst ":".toList header) with
  | nil => simp
  | cons a l => simp

theorem foldl_headers (f : Headers → Str → Headers)
    (hf : ∀ headers header, f headers header =
      match headerOfLine header with
      | none => headers
      | some e => headers.append e.1 e.2) :
    ∀ (lines : List Str) (acc : Headers),
      lines.foldl f acc = ⟨acc.entries ++ lines.filterMap headerOfLine⟩
  | [], acc => by simp
  | line :: rest, acc => by
    rw [List.foldl_cons, foldl_headers f hf rest, hf, List.filterMap_cons]
    cases headerOfLine line with
    | none => rfl
    | some e => simp [Headers.append]

/-- C19: in `_create`, the header collection holds, in the order of the lines of the
header block, one header for each line whose text before its first colon is not blank
after trimming, named by that trimmed text and valued with the trimmed text after the
first colon (later colons kept), and nothing for the other lines. -/
theorem createHeaders_lines (headersText : Str) :
    _createHeaders headersText =
      ⟨(split headersText "\n".toList).filterMap headerOfLine⟩ := by
  unfold _createHeaders
  rw [foldl_headers _ header_step]
  rfl

/-- The line `Location: http://a/b` of C19 gives the value `http://a/b`, and a line
with a blank name gives nothing. -/
theorem createHeaders_location :
    _createHeaders " Content-Type : application/json \n: x\nLocation: http://a/b".toList =
      ⟨[("Content-Type".toList, "application/json".toList),
        ("Location".toList, "http://a/b".toList)]⟩ := by
  decide

/-! ## multipart(): the boundary token -/

theorem boundaryMatch_of_declared : ∀ (ct b : Str), declaredBoundary ct = some b → b ≠ [] →
    boundaryMatch ct = some b
  | [], b => by simp [declaredBoundary]
  | c :: cs, b => by
    intro hd hne
    rw [declaredBoundary] at hd
    rw [boundaryMatch]
    by_cases hs : ciStartsWith "boundary=".toList (c :: cs) = true
    · rw [if_pos hs] at hd
      cases hd
      have hrun : (List.takeWhile (fun x => x != ';') (List.drop 9 (c :: cs))).isEmpty = false := by
        cases hr : List.takeWhile (fun x => x != ';') (List.drop 9 (c :: cs)) with
        | nil => exact absurd hr hne
        | cons a l => rfl
      simp only [hs, hrun, Bool.not_false, Bool.and_self, if_true]
    · rw [if_neg hs] at hd
      have hs1 : ciStartsWith "boundary=".toList (c :: cs) = false := by simpa using hs
      simp only [hs1, Bool.false_and, Bool.false_eq_true, if_false]
      exact boundaryMatch_of_declared cs b hd hne

/-- C20 (amended): when the characters that follow the first `boundary=` of the
Content-Type (ignoring case) up to the next semicolon or the end are at least one, they
are the boundary token, and `multipart()` splits the text on `--` followed by them. -/
theorem segments_boundary (w : ApiResponse) (ct b : Str) (c : Char) (cs : Str)
    (h : _getContentType w = .ok ct) (hm : _multipartContentType <:+: ct)
    (ht : w._text = some (c :: cs)) (hd : declaredBoundary ct = some b) (hne : b ≠ []) :
    boundaryMatch ct = some b ∧
    segments w = .ok (split (c :: cs) ("--".toList ++ b)) := by
  have hb := boundaryMatch_of_declared ct b hd hne
  refine ⟨hb, ?_⟩
  have hbe : b.isEmpty = false := by
    cases b with
    | nil => exact absurd rfl hne
    | cons x xs => rfl
  unfold segments
  rw [text_of_multipart h hm, ht]
  simp only [h, hb, hbe]
  rfl

theorem segments_boundary_witness :
    boundaryMatch "multipart/mixed; boundary=batch_123; charset=utf-8".toList =
      some "batch_123".toList ∧
    segments (Host.wrapper 200 "OK" "multipart/mixed; boundary=batch_123; charset=utf-8"
        "--batch_123\npart\n--batch_123--") =
      .ok (split "--batch_123\npart\n--batch_123--".toList ("--".toList ++ "batch_123".toList)) :=
  segments_boundary
    (Host.wrapper 200 "OK" "multipart/mixed; boundary=batch_123; charset=utf-8"
      "--batch_123\npart\n--batch_123--")
    "multipart/mixed; boundary=batch_123; charset=utf-8".toList "batch_123".toList '-'
    "-batch_123\npart\n--batch_123--".toList rfl (by decide) rfl (by decide) (by decide)

/-- C20 as stated fails: in `multipart/mixed; boundary=;boundary=x` nothing follows the
first `boundary=` before the semicolon, yet the expression matches further on, the token
is `x`, and the text is split on `--x`. -/
theorem segments_boundary_counterexample :
    declaredBoundary "multipart/mixed; boundary=;boundary=x".toList = some [] ∧
    boundaryMatch "multipart/mixed; boundary=;boundary=x".toList = some "x".toList ∧
    segments (Host.wrapper 200 "OK" "multipart/mixed; boundary=;boundary=x" "--x\npart\n--x--") =
      .ok [[], "\npart\n".toList, "--".toList] := by
  refine ⟨by decide, by decide, by rfl⟩

/-! ## multipart(): the envelope and the data parts -/

/-- From the segments of a batch body, `multipart()` builds the envelope wrapper, reads
its JSON, and builds one child for each data part. -/
theorem fromSegments_batch (P : Str → Except JsError JsVal) (w : ApiResponse) (r : Response)
    (hr : w._response = some r) (envelope : Str) (parts : List Str) :
    fromSegments P w ([] :: envelope :: (parts ++ ["--".toList])) =
      match _create w envelope (.num r.status) (some r.statusText) with
      | .error e => .error e
      | .ok e =>
        match (json P e).1 with
        | .error e => .error e
        | .ok statusInfo => createAll w statusInfo 0 parts := by
  have hlast := trimAt_last (envelope :: parts) "--".toList
  simp only [List.cons_append] at hlast
  have htrim : (trim ([] : Str)).isEmpty = true := by decide
  have htrim2 : (trim "--".toList == _boundarySeparator) = true := by decide
  have hdrop : (envelope :: (parts ++ ["--".toList])).dropLast = envelope :: parts := by
    rw [← List.cons_append, List.dropLast_concat]
  unfold fromSegments
  rw [trimAt_zero]
  simp only [htrim, if_true, List.tail_cons]
  rw [hlast]
  simp only [htrim2, if_true, hdrop, List.length_cons, hr, List.headD_cons, List.tail_cons]
  simp

/-- On a batch body, what `multipart()` computes is the children built from the parts
with the statuses the envelope gives. -/
theorem splitBody_batch_eq (P : Str → Except JsError JsVal) (w : ApiResponse) (r : Response)
    (ct b envelope : Str) (parts : List Str)
    (hr : w._response = some r)
    (h : _getContentType w = .ok ct) (hm : _multipartContentType <:+: ct)
    (hb : boundaryMatch ct = some b)
    (ht : w._text = some (batchBody b envelope parts))
    (henv : beforeFirst ("--".toList ++ b) (envelope ++ ("--".toList ++ b)) = envelope)
    (hparts : ∀ p ∈ parts, beforeFirst ("--".toList ++ b) (p ++ ("--".toList ++ b)) = p) :
    splitBody P w =
      match _create w envelope (.num r.status) (some r.statusText) with
      | .error e => .error e
      | .ok e =>
        match (json P e).1 with
        | .error e => .error e
        | .ok statusInfo => createAll w statusInfo 0 parts := by
  have hbne := boundaryMatch_ne_nil ct b hb
  have hsplit := split_batchBody b envelope parts hbne henv hparts
  obtain ⟨c, cs, hbody⟩ : ∃ c cs, batchBody b envelope parts = c :: cs := ⟨'-', _, rfl⟩
  have hbe : b.isEmpty = false := by
    cases b with
    | nil => exact absurd rfl hbne
    | cons x xs => rfl
  have hseg : segments w = .ok ([] :: envelope :: (parts ++ ["--".toList])) := by
    unfold segments
    rw [text_of_multipart h hm, ht, hbody]
    simp only [h, hb, hbe]
    rw [← hbody, hsplit]
    rfl
  rw [splitBody_eq_segments, hseg]
  exact fromSegments_batch P w r hr envelope parts

theorem createAll_short (w : ApiResponse) (statusInfo : JsVal) (entries : List JsVal)
    (hresp : statusInfo.field "response".toList = .ok (.arr entries)) :
    ∀ (parts : List Str) (i : Nat), i ≤ entries.length → entries.length < i + parts.length →
      ∃ e, createAll w statusInfo i parts = .error e
  | [], i => by
    intro h1 h2
    simp at h2
    omega
  | part :: rest, i => by
    intro h1 h2
    rw [createAll, hresp]
    simp only [JsVal.index]
    by_cases hi : i < entries.length
    · have ih := createAll_short w statusInfo entries hresp rest (i + 1) hi
        (by simp only [List.length_cons] at h2; omega)
      obtain ⟨e, he⟩ := ih
      cases hf : ((entries.get? i).getD JsVal.undefined).field "status".toList with
      | error e1 => exact ⟨e1, rfl⟩
      | ok status =>
        simp only
        cases hc : _create w part status none with
        | error e2 => exact ⟨e2, rfl⟩
        | ok child =>
          simp only [he]
          exact ⟨e, rfl⟩
    · have hge : entries.length ≤ i := by omega
      have hn : entries.get? i = none := by
        rw [List.get?_eq_getElem?]
        exact List.getElem?_eq_none hge
      rw [hn]
      exact ⟨.TypeError, rfl⟩

/-- C12: for every multipart response whose envelope parses to a value whose `response`
list has fewer entries than there are data parts, `multipart()` fails: it returns no
sequence, caches nothing, and gives no data part a default status for the missing
entry. -/
theorem multipart_short_envelope (P : Str → Except JsError JsVal) (w : ApiResponse)
    (ct b envelope envText : Str) (parts : List Str) (statusInfo : JsVal)
    (entries : List JsVal)
    (h : _getContentType w = .ok ct) (hm : _multipartContentType <:+: ct)
    (hb : boundaryMatch ct = some b) (hc : Consistent P w) (hE : w._externals.Records)
    (ht : w._text = some (batchBody b envelope parts))
    (henv : beforeFirst ("--".toList ++ b) (envelope ++ ("--".toList ++ b)) = envelope)
    (hparts : ∀ p ∈ parts, beforeFirst ("--".toList ++ b) (p ++ ("--".toList ++ b)) = p)
    (hej : _jsonContentType <:+: ((_createParts envelope).1.get _contentType).getD [])
    (het : (_createParts envelope).2 = some envText) (hne : envText ≠ [])
    (hp : P envText = .ok statusInfo)
    (hresp : statusInfo.field "response".toList = .ok (.arr entries))
    (hshort : entries.length < parts.length) :
    ∃ e, multipart P w = (.error e, w) := by
  obtain ⟨r, hr⟩ := response_of_getContentType h
  obtain ⟨env, he, hje⟩ := envelope_json P w hE envelope r.status r.statusText envText
    statusInfo hej het hne hp
  obtain ⟨e, hfail⟩ := createAll_short w statusInfo entries hresp parts 0 (Nat.zero_le _)
    (by omega)
  refine ⟨e, ?_⟩
  rw [multipart_of_consistent P h hm hc,
    splitBody_batch_eq P w r ct b envelope parts hr h hm hb ht henv hparts, he]
  simp only [hje, hfail]

theorem multipart_short_envelope_witness :
    ∃ e, multipart Host.JSON_parse Host.shortBatch = (.error e, Host.shortBatch) :=
  multipart_short_envelope Host.JSON_parse Host.shortBatch
    "multipart/mixed; boundary=b1".toList "b1".toList
    "\nContent-Type: application/json\n\n\x7b\"response\":[\x7b\"status\":200\x7d]\x7d\n".toList
    "\x7b\"response\":[\x7b\"status\":200\x7d]\x7d\n".toList
    ["\n\none\n".toList, "\n\ntwo\n".toList]
    (envelopeValue [200]) [.obj [("status".toList, .num 200)]]
    rfl (by decide) (by decide) (consistent_new _ _ _ _ _) host_records rfl (by decide)
    (by decide) (by decide) (by decide) (by decide) (by rfl) (by rfl) (by decide)

/-! ## The cached text and the content type -/

theorem receiveResponse_other (w : ApiResponse) (r : Response)
    (hn : ¬ (_jsonContentType <:+: (r.headers.get _contentType).getD [] ∨
      _multipartContentType <:+: (r.headers.get _contentType).getD [])) :
    (receiveResponse w r).2.1._text = some [] := by
  have h : _getContentType { w with _response := some r } =
      .ok ((r.headers.get _contentType).getD []) := rfl
  rw [not_or] at hn
  unfold receiveResponse
  simp only [isJson_eq h, isMultipart_eq h]
  simp [hn.1, hn.2]

/-- C11 (amended): for every wrapper whose body was attached by `receiveResponse`, the
cached text is not empty only if the Content-Type contains `application/json` or
`multipart/mixed`, and is the empty string for any other content type; a sub-wrapper
built by `_create` caches the body of its segment whatever its content type is. -/
theorem text_populated_only_textual (w : ApiResponse) (r : Response) :
    (textTruthy (receiveResponse w r).2.1._text = true →
      _jsonContentType <:+: (r.headers.get _contentType).getD [] ∨
        _multipartContentType <:+: (r.headers.get _contentType).getD []) ∧
    (¬ (_jsonContentType <:+: (r.headers.get _contentType).getD [] ∨
        _multipartContentType <:+: (r.headers.get _contentType).getD []) →
      (receiveResponse w r).2.1._text = some []) ∧
    (∀ (segment : Str) (status : JsVal) (statusText : Option Str) (child : ApiResponse),
      _create w segment status statusText = .ok child → child._text = (_createSplit segment).2) := by
  refine ⟨?_, ?_, ?_⟩
  · intro ht
    by_contra hn
    rw [receiveResponse_other w r hn] at ht
    simp [textTruthy] at ht
  · intro hn
    exact receiveResponse_other w r hn
  · intro segment status statusText child hc
    unfold _create at hc
    simp only [createParts_eq_split] at hc
    split at hc
    · cases hc
    · cases hc
      rfl

theorem text_populated_only_textual_witness :
    (receiveResponse (new Host.externals none none (some []))
      (Host.response 200 "OK" "image/png" "PNG")).2.1._text = some [] :=
  (text_populated_only_textual (new Host.externals none none (some []))
    (Host.response 200 "OK" "image/png" "PNG")).2.1 (by decide)

/-- C11 as stated fails: the data part of this batch has content type `text/plain`, and
the sub-wrapper `multipart()` builds for it has the cached text `hello`. -/
theorem text_populated_only_textual_counterexample :
    (multipart Host.JSON_parse Host.plainBatch).1.toOption.map
        (fun children => children.map
          (fun c => (c._text, (_isJson c).toOption, (_isMultipart c).toOption))) =
      some [(some "hello\n".toList, some false, some false)] := by
  rfl

/-! ## multipart(): an empty result is not kept -/

/-- A child sequence that is not empty is returned from the cache: the later call does
not depend on the parser. -/
theorem multipart_cached (P P1 : Str → Except JsError JsVal) (w w1 : ApiResponse)
    (children : List ApiResponse) (h : multipart P w = (.ok children, w1))
    (hne : children ≠ []) : multipart P1 w1 = (.ok children, w1) := by
  have hm : _isMultipart w1 = .ok true ∧ w1._multipart = children := by
    unfold multipart at h
    cases hm : _isMultipart w with
    | error e => rw [hm] at h; cases h
    | ok b =>
      cases b with
      | false => rw [hm] at h; cases h
      | true =>
        rw [hm] at h
        simp only at h
        by_cases hl : (w._multipart.length == 0) = true
        · rw [if_pos hl] at h
          cases hs : splitBody P w with
          | error e => rw [hs] at h; cases h
          | ok cs =>
            rw [hs] at h
            simp only [Prod.mk.injEq, Except.ok.injEq] at h
            obtain ⟨h1, h2⟩ := h
            subst h1
            subst h2
            exact ⟨hm, rfl⟩
        · rw [if_neg hl] at h
          simp only [Prod.mk.injEq, Except.ok.injEq] at h
          obtain ⟨h1, h2⟩ := h
          subst h2
          exact ⟨hm, h1⟩
  have hlen : (w1._multipart.length == 0) = false := by
    rw [hm.2]
    cases children with
    | nil => exact absurd rfl hne
    | cons a l => rfl
  unfold multipart
  rw [hm.1]
  simp only [hlen, Bool.false_eq_true, if_false]
  rw [hm.2]

/-- C17, the failing input: on a body made of an envelope and no data part the first
call succeeds with the empty sequence, the child cache is as empty afterwards as before,
and the next call goes through the splitting again: with a parser that rejects the
envelope it fails, where a call answered from the cache would not. -/
theorem multipart_empty_not_cached :
    (multipart Host.JSON_parse Host.emptyBatch).1.toOption.map List.length = some 0 ∧
    (multipart Host.JSON_parse Host.emptyBatch).2._multipart.length = 0 ∧
    (multipart Host.rejectAll (multipart Host.JSON_parse Host.emptyBatch).2).1.toOption.map
      List.length = none ∧
    (multipart Host.rejectAll (multipart Host.JSON_parse Host.batch).2).1.toOption.map
      List.length = some 2 := by
  refine ⟨by rfl, by rfl, by rfl, by rfl⟩

/-! ## multipart(): an envelope that is not JSON -/

/-- C21: `multipart()` fails with 'Response is not JSON' whenever the header block of
the envelope segment itself gives no Content-Type containing `application/json`,
whatever the body of the envelope is and whatever the parser makes of it, and whatever
the Content-Type of the parent says besides `multipart/mixed` and the boundary. -/
theorem multipart_envelope_not_json (P : Str → Except JsError JsVal) (w : ApiResponse)
    (ct b envelope : Str) (parts : List Str)
    (h : _getContentType w = .ok ct) (hm : _multipartContentType <:+: ct)
    (hb : boundaryMatch ct = some b) (hc : Consistent P w) (hE : w._externals.Records)
    (ht : w._text = some (batchBody b envelope parts))
    (henv : beforeFirst ("--".toList ++ b) (envelope ++ ("--".toList ++ b)) = envelope)
    (hparts : ∀ p ∈ parts, beforeFirst ("--".toList ++ b) (p ++ ("--".toList ++ b)) = p)
    (hnj : ¬ _jsonContentType <:+: ((_createParts envelope).1.get _contentType).getD []) :
    multipart P w = (.error (.Error "Response is not JSON"), w) := by
  obtain ⟨r, hr⟩ := response_of_getContentType h
  obtain ⟨r1, hr1, _, _, hrh, _⟩ :=
    hE (_createParts envelope).2 (_createParts envelope).1 r.status r.statusText
  have hcreate : _create w envelope (.num (r.status : Int)) (some r.statusText) =
      .ok (new w._externals none (some r1) (_createParts envelope).2) := by
    simp only [_create, Option.getD_some, hr1]
  have hct : _getContentType (new w._externals none (some r1) (_createParts envelope).2) =
      .ok (((_createParts envelope).1.get _contentType).getD []) := by
    simp [_getContentType, new, hrh]
  rw [multipart_of_consistent P h hm hc,
    splitBody_batch_eq P w r ct b envelope parts hr h hm hb ht henv hparts, hcreate]
  simp only [json_not_json_aux P _ hct hnj]

theorem multipart_envelope_not_json_witness :
    multipart Host.JSON_parse Host.bareEnvelopeBatch =
      (.error (.Error "Response is not JSON"), Host.bareEnvelopeBatch) :=
  multipart_envelope_not_json Host.JSON_parse Host.bareEnvelopeBatch
    "multipart/mixed; boundary=b1; type=application/json".toList "b1".toList
    "\n\n\x7b\"response\":[\x7b\"status\":200\x7d]\x7d\n".toList ["\n\none\n".toList]
    rfl (by decide) (by decide) (consistent_new _ _ _ _ _) host_records rfl (by decide)
    (by decide) (by decide)

/-! ## multipart(): an entry without a status -/

theorem envelopeObjects_response (entries : List (List (Str × JsVal))) :
    (envelopeObjects entries).field "response".toList = .ok (.arr (entries.map JsVal.obj)) := by
  simp [envelopeObjects, JsVal.field, List.lookup]

/-- A data part whose entry has no `status` field gets the defaults of `_create`, and a
part whose entry has a number gets that number; the status text is `OK` for both. -/
theorem create_entry_status (w : ApiResponse) (hE : w._externals.Records) (part : Str)
    (fields : List (Str × JsVal)) (o : Option Nat)
    (hf : fields.lookup "status".toList = o.map (fun (n : Nat) => JsVal.num (n : Int))) :
    ∃ (status : JsVal) (child : ApiResponse),
      (JsVal.obj fields).field "status".toList = .ok status ∧
      _create w part status none = .ok child ∧
      child._response.map (fun (r : Response) => (r.status, r.statusText)) =
        some (o.getD 200, "OK".toList) := by
  cases o with
  | none =>
    obtain ⟨r, hr, hrs, hrt, _, _⟩ :=
      hE (_createParts part).2 (_createParts part).1 200 "OK".toList
    have hr2 : w._externals.Response (_createParts part).2 (_createParts part).1 (JsVal.num 200)
        "OK".toList = .ok r := hr
    refine ⟨.undefined, new w._externals none (some r) (_createParts part).2, ?_, ?_, ?_⟩
    · simp only [JsVal.field, hf, Option.map_none', Option.getD_none]
    · simp only [_create, Option.getD_none, hr2]
    · simp [new, hrs, hrt]
  | some n =>
    obtain ⟨r, hr, hrs, hrt, _, _⟩ :=
      hE (_createParts part).2 (_createParts part).1 n "OK".toList
    refine ⟨.num (n : Int), new w._externals none (some r) (_createParts part).2, ?_, ?_, ?_⟩
    · simp only [JsVal.field, hf, Option.map_some', Option.getD_some]
    · simp only [_create, Option.getD_none, hr]
    · simp [new, hrs, hrt]

theorem createAll_entries (w : ApiResponse) (hE : w._externals.Records) :
    ∀ (parts : List Str) (done entries : List (List (Str × JsVal)))
      (statuses : List (Option Nat)), entries.length = parts.length →
    entries.map (fun f => f.lookup "status".toList) =
      statuses.map (fun o => o.map (fun (n : Nat) => JsVal.num (n : Int))) →
    ∃ children, createAll w (envelopeObjects (done ++ entries)) done.length parts = .ok children ∧
      children.map (fun c => c._response.map (fun r => (r.status, r.statusText))) =
        statuses.map (fun o => some (o.getD 200, "OK".toList))
  | [], done, entries, statuses => by
    intro hl hs
    have he : entries = [] := List.eq_nil_of_length_eq_zero hl
    subst he
    have : statuses = [] := by
      cases statuses with
      | nil => rfl
      | cons a l => simp at hs
    subst this
    exact ⟨[], rfl, rfl⟩
  | part :: rest, done, entries, statuses => by
    intro hl hs
    cases entries with
    | nil => simp at hl
    | cons f fs =>
      cases statuses with
      | nil => simp at hs
      | cons o os =>
        simp only [List.map_cons, List.cons.injEq] at hs
        have hl1 : fs.length = rest.length := by simpa using hl
        obtain ⟨cs, hcs, hst⟩ := createAll_entries w hE rest (done ++ [f]) fs os hl1 hs.2
        obtain ⟨status, child, hfs, hchild, hcst⟩ := create_entry_status w hE part f o hs.1
        have hidx : ((done ++ f :: fs).map JsVal.obj).get? done.length = some (JsVal.obj f) := by
          rw [List.get?_eq_getElem?, List.getElem?_map, List.getElem?_append_right (le_refl _)]
          simp
        have hd : done ++ f :: fs = (done ++ [f]) ++ fs := by simp
        have hlen : (done ++ [f]).length = done.length + 1 := by simp
        rw [← hd, hlen] at hcs
        refine ⟨child :: cs, ?_, ?_⟩
        · rw [createAll]
          simp only [envelopeObjects_response, JsVal.index, hidx, Option.getD_some, hfs,
            hchild, hcs]
        · simp [hcst, hst]

/-- C22: when the envelope's status list has an entry for every data part, each entry an
object whose `status` is a number or is missing, `multipart()` succeeds, and the
sub-wrapper of a part whose entry has no `status` field is built with status 200 and
status text `OK`, the defaults of `_create` (a part whose entry has a number gets that
number). -/
theorem multipart_missing_status (P : Str → Except JsError JsVal) (w : ApiResponse)
    (ct b envelope envText : Str) (parts : List Str) (entries : List (List (Str × JsVal)))
    (statuses : List (Option Nat))
    (h : _getContentType w = .ok ct) (hm : _multipartContentType <:+: ct)
    (hb : boundaryMatch ct = some b) (hc : Consistent P w) (hE : w._externals.Records)
    (ht : w._text = some (batchBody b envelope parts))
    (henv : beforeFirst ("--".toList ++ b) (envelope ++ ("--".toList ++ b)) = envelope)
    (hparts : ∀ p ∈ parts, beforeFirst ("--".toList ++ b) (p ++ ("--".toList ++ b)) = p)
    (hlen : entries.length = parts.length)
    (hstatus : entries.map (fun f => f.lookup "status".toList) =
      statuses.map (fun o => o.map (fun (n : Nat) => JsVal.num (n : Int))))
    (hej : _jsonContentType <:+: ((_createParts envelope).1.get _contentType).getD [])
    (het : (_createParts envelope).2 = some envText) (hne : envText ≠ [])
    (hp : P envText = .ok (envelopeObjects entries)) :
    ∃ children, multipart P w = (.ok children, { w with _multipart := children }) ∧
      children.map (fun c => c._response.map (fun r => (r.status, r.statusText))) =
        statuses.map (fun o => some (o.getD 200, "OK".toList)) := by
  obtain ⟨r, hr⟩ := response_of_getContentType h
  obtain ⟨env, he, hje⟩ := envelope_json P w hE envelope r.status r.statusText envText
    (envelopeObjects entries) hej het hne hp
  obtain ⟨children, hcs, hst⟩ := createAll_entries w hE parts [] entries statuses hlen hstatus
  simp only [List.nil_append, List.length_nil] at hcs
  refine ⟨children, ?_, hst⟩
  rw [multipart_of_consistent P h hm hc,
    splitBody_batch_eq P w r ct b envelope parts hr h hm hb ht henv hparts, he]
  simp only [hje, hcs]

theorem multipart_missing_status_witness :
    ∃ children, multipart Host.JSON_parse Host.defaultStatusBatch =
        (.ok children, { Host.defaultStatusBatch with _multipart := children }) ∧
      children.map (fun c => c._response.map (fun r => (r.status, r.statusText))) =
        [some (404, "OK".toList), some (200, "OK".toList), some (200, "OK".toList)] :=
  multipart_missing_status Host.JSON_parse Host.defaultStatusBatch
    "multipart/mixed; boundary=b1".toList "b1".toList
    "\nContent-Type: application/json\n\n\x7b\"response\":[\x7b\"status\":404\x7d,\x7b\x7d,\x7b\"href\":\"x\"\x7d]\x7d\n".toList
    "\x7b\"response\":[\x7b\"status\":404\x7d,\x7b\x7d,\x7b\"href\":\"x\"\x7d]\x7d\n".toList
    ["\n\none\n".toList, "\n\ntwo\n".toList, "\n\nthree\n".toList]
    [[("status".toList, .num 404)], [], [("href".toList, .str "x".toList)]]
    [some 404, none, none]
    rfl (by decide) (by decide) (consistent_new _ _ _ _ _) host_records rfl (by decide)
    (by decide) rfl (by rfl) (by decide) (by decide) (by decide) (by rfl)

end ApiResponse

end RingCentral
